import Mathlib

/-!
Verification development for the `grammar` package of the guanabana
LALR(1) parser generator (Go sources: `internal/grammar/builder.go`,
the grammar model / `Finalize` file, the `Sink` interface file and the
`BuilderSink` adapter file).

The Go code is shallowly embedded:

* Go pointers `*Symbol` become dense indices (`Nat`) into the grammar's
  `symbols` vector; nil-able pointer parameters become `Option Nat`.
  Pointer equality of interned symbols coincides with index equality
  because the intern table never holds duplicates.
* The map `SymbolsByName` is updated in exactly the places where the
  `Symbols` vector is appended, with the same (trimmed) key, so it is
  embedded as a linear lookup by name over the vector (`lookupIdx`).
* Go's `strings.TrimSpace` / `unicode` helpers are modelled on an
  explicit character fragment — ASCII, the Latin-1 letters and white
  space, the Greek capital block and the CJK unified ideographs — on
  which each model agrees with Go exactly (see `goIsSpace`,
  `goIsLetter`, `goToUpper`); code points outside the fragment are
  documented model boundaries.
* Diagnostic messages are rebuilt by string concatenation following the
  `fmt.Sprintf` format strings of the source; `%q` is modelled as
  surrounding double quotes (symbol names never need escaping).
* Go map iterations inside `Finalize` (the `used`, `edges` and
  `lhsHasRule` maps) have unspecified order; the embedding iterates in
  symbol-ID / insertion order.  Only the multiset of diagnostics is ever
  the subject of a claim, never their order.
* Defensive nil checks that the Builder API can never trigger (a nil
  `*Rule` in `Grammar.Rules`, a nil LHS stored by `BeginRule`, a nil
  `*Alternative` stored by `Alt`) are dropped together with their
  unreachable error branches; nil checks that user input can trigger
  (nil RHS refs, nil symbol arguments) are kept via `Option`.
-/

namespace Guanabana

/-- Source span (file, 1-based line/column, optional end position). -/
structure Span where
  file : String
  line : Nat
  column : Nat
  endLine : Nat
  endColumn : Nat
deriving DecidableEq, Repr

/-- Diagnostic severity: `DiagError` or `DiagWarn`. -/
inductive DiagnosticLevel where
  | DiagError
  | DiagWarn
deriving DecidableEq, Repr

export DiagnosticLevel (DiagError DiagWarn)

/-- A structured error/warning collected by the Builder. -/
structure Diagnostic where
  level : DiagnosticLevel
  msg : String
  atSpan : Option Span
deriving DecidableEq, Repr

/-- Terminal vs nonterminal kind tag. -/
inductive SymbolKind where
  | SymTerminal
  | SymNonterminal
deriving DecidableEq, Repr

export SymbolKind (SymTerminal SymNonterminal)

/-- Operator associativity used by precedence handling. -/
inductive Assoc where
  | AssocNone
  | AssocLeft
  | AssocRight
  | AssocNonassoc
deriving DecidableEq, Repr

export Assoc (AssocNone AssocLeft AssocRight AssocNonassoc)

/-- A named grammar symbol.  `id` is the dense ID assigned at interning;
it equals the symbol's index in `Grammar.symbols`. -/
structure Symbol where
  id : Nat
  name : String
  kind : SymbolKind
  typeTag : String
  precedence : Nat
  assoc : Assoc
  declaredAt : Option Span
deriving DecidableEq, Repr

/-- A reference to a symbol in an RHS (Go `SymbolRef`; `sym` is the
interned symbol's ID and is never dangling when built through the API). -/
structure SymbolRef where
  sym : Nat
  label : String
  atSpan : Option Span
deriving DecidableEq, Repr

/-- An opaque semantic action block. -/
structure Action where
  raw : String
  atSpan : Option Span
deriving DecidableEq, Repr

/-- One RHS option of a rule.  An entry `none` in `rhs` models a nil
`*SymbolRef` (or a ref with nil `Sym`) passed by the caller; `Alt`
records an error for it but stores it anyway. -/
structure Alternative where
  rhs : List (Option SymbolRef)
  action : Option Action
  precSym : Option Nat
  atSpan : Option Span
deriving DecidableEq, Repr

/-- A production group `LHS ::= RHS1 | RHS2 | ...`. -/
structure Rule where
  lhs : Nat
  alternatives : List Alternative
  atSpan : Option Span
deriving DecidableEq, Repr

/-- The in-memory grammar.  `symbols` doubles as the by-name intern
table (names are unique in it); `start` is the start symbol's ID. -/
structure Grammar where
  name : String
  start : Option Nat
  symbols : List Symbol
  rules : List Rule
  directives : List (String × String)
deriving DecidableEq, Repr

/-- The incremental grammar builder: grammar, precedence group counter
and collected diagnostics. -/
structure Builder where
  g : Grammar
  precedenceCounter : Nat
  diags : List Diagnostic
deriving DecidableEq, Repr

/-- `NewBuilder` creates a Builder holding an empty Grammar. -/
def NewBuilder (fileLabel : String) : Builder :=
  let _ := fileLabel
  { g := { name := "", start := none, symbols := [], rules := [],
           directives := [] },
    precedenceCounter := 0,
    diags := [] }

/-- `HasErrors` reports whether any error-level diagnostics exist. -/
def Builder.HasErrors (b : Builder) : Bool :=
  b.diags.any (fun d => d.level = DiagError)

/-- Model of Go `unicode.IsSpace` on the Latin-1 fragment (the white
space characters `strings.TrimSpace` strips from identifiers here):
TAB, LF, VT, FF, CR, SPACE, NEL, NBSP. -/
def goIsSpace (c : Char) : Bool :=
  c.toNat = 9 || c.toNat = 10 || c.toNat = 11 || c.toNat = 12 ||
  c.toNat = 13 || c.toNat = 32 || c.toNat = 133 || c.toNat = 160

/-- Model of Go `strings.TrimSpace`: drop white space from both ends. -/
def trimSpace (s : String) : String :=
  String.mk (((s.toList.dropWhile goIsSpace).reverse.dropWhile
    goIsSpace).reverse)

/-- Linear by-name lookup over the symbol vector; returns the index and
the symbol.  This embeds the Go map `SymbolsByName` (see header note). -/
def lookupIdx (syms : List Symbol) (name : String) :
    Option (Nat × Symbol) :=
  match syms with
  | [] => none
  | s :: rest =>
      if s.name = name then some (0, s)
      else (lookupIdx rest name).map (fun p => (p.1 + 1, p.2))

/-- The symbol stored at index `i` (Go: dereferencing a `*Symbol`). -/
def Builder.symAt (b : Builder) (i : Nat) : Option Symbol :=
  b.g.symbols.get? i

/-- `Lookup` a symbol by name, normalizing exactly as `Intern` does. -/
def Builder.Lookup (b : Builder) (name : String) : Option (Nat × Symbol) :=
  lookupIdx b.g.symbols (trimSpace name)

/-- Append an error-level diagnostic. -/
def Builder.error (b : Builder) (atSpan : Option Span) (msg : String) :
    Builder :=
  { b with diags := b.diags ++ [{ level := DiagError, msg := msg,
                                  atSpan := atSpan }] }

/-- Append a warning-level diagnostic. -/
def Builder.warn (b : Builder) (atSpan : Option Span) (msg : String) :
    Builder :=
  { b with diags := b.diags ++ [{ level := DiagWarn, msg := msg,
                                  atSpan := atSpan }] }

/-- Go helper `kindString`. -/
def kindString (k : SymbolKind) : String :=
  match k with
  | SymTerminal => "terminal"
  | SymNonterminal => "nonterminal"

/-- Model of `fmt` verb `%q` on a symbol name. -/
def quoteName (s : String) : String := "\"" ++ s ++ "\""

/-- The non-empty-name path of `Intern`: the argument is already trimmed
and non-empty.  Returns the (possibly extended) builder and the ID of
the interned symbol. -/
def Builder.internNamed (b : Builder) (name : String) (kind : SymbolKind)
    (atSpan : Option Span) : Builder × Nat :=
  match lookupIdx b.g.symbols name with
  | some (i, sym) =>
      if sym.kind ≠ kind then
        (b.error atSpan ("symbol " ++ quoteName name ++
          " previously declared as " ++ kindString sym.kind ++
          ", cannot redeclare as " ++ kindString kind), i)
      else (b, i)
  | none =>
      let sym : Symbol :=
        { id := b.g.symbols.length, name := name, kind := kind,
          typeTag := "", precedence := 0, assoc := AssocNone,
          declaredAt := atSpan }
      ({ b with g := { b.g with symbols := b.g.symbols ++ [sym] } },
       b.g.symbols.length)

/-- `internDummy`: one stable `<invalid>` sentinel per builder. -/
def Builder.internDummy (b : Builder) (atSpan : Option Span) :
    Builder × Nat :=
  match lookupIdx b.g.symbols "<invalid>" with
  | some (i, _) => (b, i)
  | none => b.internNamed "<invalid>" SymNonterminal atSpan

/-- `Intern` gets or creates a symbol with the given name and kind.  A
known name with a different kind keeps the original and records an
error; an empty (trimmed) name records an error and yields the sentinel. -/
def Builder.Intern (b : Builder) (name0 : String) (kind : SymbolKind)
    (atSpan : Option Span) : Builder × Nat :=
  let name := trimSpace name0
  if name = "" then
    (b.error atSpan "symbol name is empty").internDummy atSpan
  else
    b.internNamed name kind atSpan

/-- `EnsureTerminal` interns as terminal. -/
def Builder.EnsureTerminal (b : Builder) (name : String)
    (atSpan : Option Span) : Builder × Nat :=
  b.Intern name SymTerminal atSpan

/-- `EnsureNonterminal` interns as nonterminal. -/
def Builder.EnsureNonterminal (b : Builder) (name : String)
    (atSpan : Option Span) : Builder × Nat :=
  b.Intern name SymNonterminal atSpan

/-- Update the symbol stored at index `i` (Go: mutation through the
interned `*Symbol`). -/
def Builder.updateSymbolAt (b : Builder) (i : Nat) (f : Symbol → Symbol) :
    Builder :=
  match b.g.symbols.get? i with
  | none => b
  | some s => { b with g := { b.g with symbols := b.g.symbols.set i (f s) } }

/-- `SetTypeTag` sets the type tag for a symbol; on a conflicting tag an
error is recorded and the first tag wins. -/
def Builder.SetTypeTag (b : Builder) (sym : Option Nat) (typeTag0 : String)
    (atSpan : Option Span) : Builder :=
  match sym with
  | none => b
  | some i =>
      let typeTag := trimSpace typeTag0
      if typeTag = "" then b
      else
        match b.g.symbols.get? i with
        | none => b
        | some s =>
            if s.typeTag ≠ "" ∧ s.typeTag ≠ typeTag then
              b.error atSpan ("symbol " ++ quoteName s.name ++
                " already has type " ++ quoteName s.typeTag ++
                "; cannot set to " ++ quoteName typeTag)
            else
              b.updateSymbolAt i (fun s0 => { s0 with typeTag := typeTag })

/-- `SetStart` sets the grammar start symbol; a terminal is rejected
with an error, a change of start symbol is warned about. -/
def Builder.SetStart (b : Builder) (sym : Option Nat)
    (atSpan : Option Span) : Builder :=
  match sym with
  | none => b
  | some i =>
      match b.g.symbols.get? i with
      | none => b
      | some s =>
          if s.kind ≠ SymNonterminal then
            b.error atSpan ("start symbol " ++ quoteName s.name ++
              " must be a nonterminal")
          else
            let b :=
              match b.g.start with
              | none => b
              | some old =>
                  if old ≠ i then
                    b.warn atSpan ("start symbol changed from " ++
                      quoteName (((b.g.symbols.get? old).map
                        Symbol.name).getD "") ++ " to " ++
                      quoteName s.name)
                  else b
            { b with g := { b.g with start := some i } }

/-- One step of `DefinePrecedenceGroup`'s loop over the listed symbols. -/
def precGroupStep (assoc : Assoc) (level : Nat) (atSpan : Option Span)
    (b : Builder) (t : Option Nat) : Builder :=
  match t with
  | none => b
  | some i =>
      match b.g.symbols.get? i with
      | none => b
      | some s =>
          if s.kind ≠ SymTerminal then
            b.error atSpan ("precedence can only be assigned to terminals; "
              ++ quoteName s.name ++ " is " ++ kindString s.kind)
          else if s.precedence ≠ 0 then
            b.warn atSpan ("terminal " ++ quoteName s.name ++
              " already has precedence " ++ toString s.precedence ++
              "; ignoring new precedence " ++ toString level)
          else
            b.updateSymbolAt i
              (fun s0 => { s0 with precedence := level, assoc := assoc })

/-- `DefinePrecedenceGroup` applies one precedence/associativity group
to a list of terminals (IDs; `none` models a nil entry). -/
def Builder.DefinePrecedenceGroup (b : Builder) (assoc : Assoc)
    (terminals : List (Option Nat)) (atSpan : Option Span) : Builder :=
  if assoc = AssocNone then
    b.error atSpan
      "precedence group must have associativity (left/right/nonassoc)"
  else
    let level := b.precedenceCounter + 1
    let b := { b with precedenceCounter := level }
    terminals.foldl (precGroupStep assoc level atSpan) b

/-- State of a `RuleBuilder`: the index of the rule under construction
in `Grammar.rules`, and the `done` latch. -/
structure RuleBuilder where
  ruleIdx : Nat
  done : Bool
deriving DecidableEq, Repr

/-- `BeginRule` starts a new rule for the given LHS (a nil LHS becomes
the sentinel); infers the start symbol from the first rule. -/
def Builder.BeginRule (b : Builder) (lhs : Option Nat)
    (atSpan : Option Span) : Builder × RuleBuilder :=
  let (b, lhs) :=
    match lhs with
    | none => b.internDummy atSpan
    | some l => (b, l)
  let lhsKind := (b.g.symbols.get? lhs).map Symbol.kind
  let b :=
    if lhsKind ≠ some SymNonterminal then
      b.error atSpan ("rule LHS " ++
        quoteName (((b.g.symbols.get? lhs).map Symbol.name).getD "") ++
        " must be a nonterminal")
    else b
  let b := { b with g := { b.g with rules := b.g.rules ++
    [{ lhs := lhs, alternatives := [], atSpan := atSpan }] } }
  let b :=
    if b.g.start = none ∧ lhsKind = some SymNonterminal then
      { b with g := { b.g with start := some lhs } }
    else b
  (b, { ruleIdx := b.g.rules.length - 1, done := false })

/-- `Alt` adds an alternative to the rule under construction.  Nil RHS
entries are reported (but stored); a non-terminal precedence override is
reported and dropped. -/
def Builder.Alt (b : Builder) (rb : RuleBuilder)
    (rhs : List (Option SymbolRef)) (action : Option Action)
    (prec : Option Nat) (atSpan : Option Span) : Builder :=
  if rb.done then b
  else
    let b := (List.range rhs.length).foldl
      (fun b i =>
        if rhs.get? i = some none then
          b.error atSpan ("rhs symbol at position " ++ toString i ++
            " is nil")
        else b) b
    let (b, prec) :=
      match prec with
      | none => (b, none)
      | some p =>
          if ((b.g.symbols.get? p).map Symbol.kind) ≠ some SymTerminal then
            (b.error atSpan ("precedence override symbol " ++
              quoteName (((b.g.symbols.get? p).map Symbol.name).getD "")
              ++ " must be a terminal"), none)
          else (b, some p)
    match b.g.rules.get? rb.ruleIdx with
    | none => b
    | some r =>
        let alt : Alternative :=
          { rhs := rhs, action := action, precSym := prec,
            atSpan := atSpan }
        let r2 : Rule := { r with alternatives := r.alternatives ++ [alt] }
        { b with g := { b.g with rules := b.g.rules.set rb.ruleIdx r2 } }

/-- `End` marks the rule builder finished. -/
def RuleBuilder.End (rb : RuleBuilder) : RuleBuilder :=
  { rb with done := true }

/-- `NewRef` creates an RHS reference (nil symbol becomes the sentinel). -/
def Builder.NewRef (b : Builder) (sym : Option Nat) (label : String)
    (atSpan : Option Span) : Builder × SymbolRef :=
  let (b, sym) :=
    match sym with
    | none => b.internDummy atSpan
    | some s => (b, s)
  (b, { sym := sym, label := trimSpace label, atSpan := atSpan })

/-- `NewAction` wraps an action block; blank text yields nil. -/
def NewAction (raw0 : String) (atSpan : Option Span) : Option Action :=
  let raw := trimSpace raw0
  if raw = "" then none else some { raw := raw, atSpan := atSpan }

/-- Replace-or-append update of the directive table (Go map store). -/
def directivesSet (l : List (String × String)) (k v : String) :
    List (String × String) :=
  if l.any (fun p => p.1 = k) then
    l.map (fun p => if p.1 = k then (k, v) else p)
  else l ++ [(k, v)]

/-- `SetDirective` stores a directive key/value pair; warns on
overwrite, keeps the last value. -/
def Builder.SetDirective (b : Builder) (key0 value : String)
    (atSpan : Option Span) : Builder :=
  let key := trimSpace key0
  if key = "" then b.error atSpan "directive key is empty"
  else
    let b :=
      if (b.g.directives.any (fun p => p.1 = key)) then
        b.warn atSpan ("directive " ++ quoteName key ++ " overwritten")
      else b
    let d2 := directivesSet b.g.directives key value
    { b with g := { b.g with directives := d2 } }

/-- Error diagnostic record. -/
def errD (atSpan : Option Span) (msg : String) : Diagnostic :=
  { level := DiagError, msg := msg, atSpan := atSpan }

/-- Warning diagnostic record. -/
def warnD (atSpan : Option Span) (msg : String) : Diagnostic :=
  { level := DiagWarn, msg := msg, atSpan := atSpan }

/-- Kind of the symbol with ID `i`. -/
def symKindOf (g : Grammar) (i : Nat) : Option SymbolKind :=
  (g.symbols.get? i).map Symbol.kind

/-- Name of the symbol with ID `i`. -/
def symNameOf (g : Grammar) (i : Nat) : String :=
  ((g.symbols.get? i).map Symbol.name).getD ""

/-- Declaration span of the symbol with ID `i`. -/
def symDeclAt (g : Grammar) (i : Nat) : Option Span :=
  match g.symbols.get? i with
  | some s => s.declaredAt
  | none => none

/-!
`Finalize` (semantic validation).  The Go function only appends
diagnostics to `b.diags` and returns `b.g`; it performs no write to the
grammar.  It is embedded as a pure diagnostic computation over the
grammar, one definition per section of the source, concatenated in the
source's emission order.
-/

/-- Finalize section 1b: start-symbol existence/kind checks. -/
def startDiags (g : Grammar) : List Diagnostic :=
  match g.start with
  | none => [errD none "start symbol is not set and could not be inferred"]
  | some s =>
      if symKindOf g s ≠ some SymNonterminal then
        [errD (symDeclAt g s) ("start symbol " ++
          quoteName (symNameOf g s) ++ " must be a nonterminal")]
      else []

/-- Finalize section 2: every rule's LHS must be a nonterminal. -/
def ruleLHSDiags (g : Grammar) : List Diagnostic :=
  g.rules.flatMap (fun r =>
    if symKindOf g r.lhs ≠ some SymNonterminal then
      [errD r.atSpan ("rule LHS " ++ quoteName (symNameOf g r.lhs) ++
        " must be a nonterminal")]
    else [])

/-- Does symbol `i` appear as the LHS of some rule? -/
def lhsHasRule (g : Grammar) (i : Nat) : Bool :=
  g.rules.any (fun r => r.lhs = i)

/-- Finalize section 3, per-alternative RHS nil checks. -/
def altRHSDiags (g : Grammar) (r : Rule) (alt : Alternative) :
    List Diagnostic :=
  (List.range alt.rhs.length).flatMap (fun pos =>
    if alt.rhs.get? pos = some none then
      [errD alt.atSpan ("rule " ++ quoteName (symNameOf g r.lhs) ++
        " has nil rhs symbol at position " ++ toString pos)]
    else [])

/-- Finalize section 3, per-alternative precedence override checks. -/
def altPrecDiags (g : Grammar) (alt : Alternative) : List Diagnostic :=
  match alt.precSym with
  | none => []
  | some p =>
      if symKindOf g p ≠ some SymTerminal then
        [errD alt.atSpan ("precedence override symbol " ++
          quoteName (symNameOf g p) ++ " must be a terminal")]
      else if ((g.symbols.get? p).map Symbol.precedence).getD 0 = 0 then
        [warnD alt.atSpan ("precedence override uses " ++
          quoteName (symNameOf g p) ++
          ", but it has no precedence (missing %left/%right/%nonassoc?)")]
      else []

/-- Finalize section 3: production validation; a rule without
alternatives draws a warning. -/
def productionDiags (g : Grammar) : List Diagnostic :=
  g.rules.flatMap (fun r =>
    if r.alternatives = [] then
      [warnD r.atSpan ("rule " ++ quoteName (symNameOf g r.lhs) ++
        " has no alternatives")]
    else
      r.alternatives.flatMap (fun alt =>
        altRHSDiags g r alt ++ altPrecDiags g alt))

/-- Occurrences of symbol `i` in one alternative (RHS entries plus a
precedence override), as counted into the Go `used` map. -/
def altUses (alt : Alternative) (i : Nat) : Nat :=
  alt.rhs.countP (fun sr =>
    match sr with
    | some s => s.sym = i
    | none => false) +
  (match alt.precSym with
   | some p => if p = i then 1 else 0
   | none => 0)

/-- Total use count of symbol `i` (the Go `used` map entry). -/
def usedCount (g : Grammar) (i : Nat) : Nat :=
  ((g.rules.flatMap Rule.alternatives).map (fun alt => altUses alt i)).sum

/-- Finalize section 4: nonterminals used in some RHS without a rule. -/
def undefinedNTDiags (g : Grammar) : List Diagnostic :=
  (List.range g.symbols.length).flatMap (fun i =>
    match g.symbols.get? i with
    | none => []
    | some s =>
        if 0 < usedCount g i ∧ s.kind = SymNonterminal ∧
            ¬ lhsHasRule g i then
          [errD s.declaredAt ("nonterminal " ++ quoteName s.name ++
            " is used but has no rule")]
        else [])

/-- The reachability edge relation among nonterminals: `A → … B …`. -/
def ntEdge (g : Grammar) (a j : Nat) : Bool :=
  g.rules.any (fun r =>
    r.lhs = a && r.alternatives.any (fun alt =>
      alt.rhs.any (fun sr =>
        match sr with
        | some s => s.sym = j && symKindOf g j = some SymNonterminal
        | none => false)))

/-- One expansion step of the reachable set. -/
def reachStep (g : Grammar) (rs : List Nat) : List Nat :=
  rs ++ ((List.range g.symbols.length).filter (fun j =>
    ¬ rs.contains j ∧ rs.any (fun a => ntEdge g a j)))

/-- Fuelled iteration of `reachStep`. -/
def reachIter (g : Grammar) : Nat → List Nat → List Nat
  | 0, rs => rs
  | n + 1, rs => reachIter g n (reachStep g rs)

/-- The set of nonterminals reachable from `s0` over `ntEdge`
(the Go DFS computes the same set; only membership is ever used). -/
def reachableSet (g : Grammar) (s0 : Nat) : List Nat :=
  reachIter g g.symbols.length [s0]

/-- Finalize section 5: nonterminals with rules unreachable from start. -/
def reachabilityDiags (g : Grammar) : List Diagnostic :=
  match g.start with
  | none => []
  | some s0 =>
      if symKindOf g s0 = some SymNonterminal then
        let rs := reachableSet g s0
        (List.range g.symbols.length).flatMap (fun i =>
          match g.symbols.get? i with
          | none => []
          | some s =>
              if lhsHasRule g i ∧ ¬ rs.contains i then
                [warnD s.declaredAt ("nonterminal " ++ quoteName s.name ++
                  " has rules but is unreachable from start symbol " ++
                  quoteName (symNameOf g s0))]
              else [])
      else []

/-- Finalize section 6: symbols declared but never referenced. -/
def unusedDiags (g : Grammar) : List Diagnostic :=
  (List.range g.symbols.length).flatMap (fun i =>
    match g.symbols.get? i with
    | none => []
    | some s =>
        if s.name = "<invalid>" then []
        else if usedCount g i = 0 then
          match s.kind with
          | SymTerminal =>
              [warnD s.declaredAt ("terminal " ++ quoteName s.name ++
                " is declared but never used")]
          | SymNonterminal =>
              if lhsHasRule g i then
                [warnD s.declaredAt ("nonterminal " ++ quoteName s.name ++
                  " has rules but is never referenced (except as LHS)")]
              else
                [warnD s.declaredAt ("nonterminal " ++ quoteName s.name ++
                  " is declared but never used and has no rules")]
        else [])

/-- All diagnostics `Finalize` emits for a grammar, in emission order
(an empty rule list short-circuits everything else). -/
def finalizeDiags (g : Grammar) : List Diagnostic :=
  if g.rules = [] then [errD none "grammar has no rules"]
  else
    startDiags g ++ ruleLHSDiags g ++ productionDiags g ++
    undefinedNTDiags g ++ reachabilityDiags g ++ unusedDiags g

/-- `Finalize` performs semantic validation: it records diagnostics and
returns the grammar (`b.g`) unchanged — the Go function contains no
write to the grammar. -/
def Builder.Finalize (b : Builder) : Builder :=
  { b with diags := b.diags ++ finalizeDiags b.g }

/-!
The parser-facing `Sink` event types and the `BuilderSink` adapter.
-/

/-- Directive kinds recognized by the sink. -/
inductive DirectiveKind where
  | DirUnknown
  | DirStartSymbol
  | DirTokenType
  | DirType
  | DirToken
  | DirLeft
  | DirRight
  | DirNonassoc
  | DirInclude
  | DirCode
  | DirFallback
deriving DecidableEq, Repr

export DirectiveKind (DirUnknown DirStartSymbol DirTokenType DirType
  DirToken DirLeft DirRight DirNonassoc DirInclude DirCode DirFallback)

/-- How the parser refers to a symbol occurrence (by name). -/
structure SymRef where
  name : String
  atSpan : Option Span
  label : String
  typeTag : String
deriving DecidableEq, Repr

/-- A structured directive record. -/
structure Directive where
  kind : DirectiveKind
  atSpan : Option Span
  key : String
  value : String
  list : List SymRef
deriving DecidableEq, Repr

/-- A full alternative event for the current rule. -/
structure Alt where
  atSpan : Option Span
  rhs : List SymRef
  action : Option Action
  prec : Option SymRef
deriving DecidableEq, Repr

/-- `BuilderSink` adapts `Builder` to the parser-facing `Sink`. -/
structure BuilderSink where
  b : Builder
  curRule : Option RuleBuilder
  curLHS : Option Nat
  declTokens : List String
  declTypes : List (String × String)
  useHeuristicCapsAsTerminal : Bool
deriving DecidableEq, Repr

/-- `NewBuilderSink` constructs a sink around a builder (the ALLCAPS
heuristic defaults to on). -/
def NewBuilderSink (b : Builder) : BuilderSink :=
  { b := b, curRule := none, curLHS := none, declTokens := [],
    declTypes := [], useHeuristicCapsAsTerminal := true }

/-- Set-insert into the `declTokens` set (Go `map[string]bool` store). -/
def setInsert (l : List String) (n : String) : List String :=
  if l.contains n then l else l ++ [n]

/-- Go map lookup over the embedded association list. -/
def lookupStr (l : List (String × String)) (k : String) : Option String :=
  (l.find? (fun p => p.1 = k)).map (fun p => p.2)

/-- `ParserError` forwards a parser syntax error as a diagnostic. -/
def BuilderSink.ParserError (s : BuilderSink) (atSpan : Option Span)
    (msg : String) : BuilderSink :=
  { s with b := s.b.error atSpan msg }

/-- Model of Go `unicode.IsLetter` on the character fragment this
development reasons about: the ASCII letters, the Latin-1 letters
(U+00AA, U+00B5, U+00BA, U+00C0–U+00D6, U+00D8–U+00F6, U+00F8–U+00FF),
the Greek capital block Α–Ω (U+0391–U+03A9, with the unassigned
U+03A2 excluded) and the CJK unified ideographs (U+4E00–U+9FFF) — each
classified exactly as Go classifies it.  Code points outside this
fragment are treated as non-letters: a documented model boundary. -/
def goIsLetter (c : Char) : Bool :=
  (65 ≤ c.toNat && c.toNat ≤ 90) || (97 ≤ c.toNat && c.toNat ≤ 122) ||
  c.toNat = 0xAA || c.toNat = 0xB5 || c.toNat = 0xBA ||
  (0xC0 ≤ c.toNat && c.toNat ≤ 0xD6) ||
  (0xD8 ≤ c.toNat && c.toNat ≤ 0xF6) ||
  (0xF8 ≤ c.toNat && c.toNat ≤ 0xFF) ||
  (0x391 ≤ c.toNat && c.toNat ≤ 0x3A9 && c.toNat ≠ 0x3A2) ||
  (0x4E00 ≤ c.toNat && c.toNat ≤ 0x9FFF)

/-- Model of Go `unicode.ToUpper` on the same fragment, with Go's
actual mappings: ASCII `a`–`z` and Latin-1 `à`–`þ` (`÷` excluded) map
down by 32, `µ` maps to Greek capital `Μ` (U+039C), `ÿ` maps to `Ÿ`
(U+0178); `ß`, `ª`, `º`, the Greek capitals and the CJK ideographs are
fixed, as in Go.  Code points outside the fragment are fixed. -/
def goToUpper (c : Char) : Char :=
  if 97 ≤ c.toNat && c.toNat ≤ 122 then Char.ofNat (c.toNat - 32)
  else if c.toNat = 0xB5 then Char.ofNat 0x39C
  else if (0xE0 ≤ c.toNat && c.toNat ≤ 0xF6) ||
      (0xF8 ≤ c.toNat && c.toNat ≤ 0xFE) then Char.ofNat (c.toNat - 32)
  else if c.toNat = 0xFF then Char.ofNat 0x178
  else c

/-- The loop of `looksLikeTerminal`: early exit (terminal-ish) on any
non-letter, otherwise track `hasLetter` and `allUpperLetters`. -/
def looksLikeTerminalAux : List Char → Bool → Bool → Bool
  | [], hasLetter, allUpper => hasLetter && allUpper
  | c :: rest, _hasLetter, allUpper =>
      if goIsLetter c then
        looksLikeTerminalAux rest true (allUpper && (goToUpper c = c))
      else true

/-- `looksLikeTerminal`: token-like names — any non-letter present, or
all-uppercase letters. -/
def looksLikeTerminal (name : String) : Bool :=
  if name = "" then false
  else looksLikeTerminalAux name.toList false true

/-- `resolveSymbolInRHS` decides terminal vs nonterminal for an RHS
occurrence: declared token > existing interned kind > ALLCAPS-ish
heuristic > nonterminal. -/
def BuilderSink.resolveSymbolInRHS (s : BuilderSink) (sr : SymRef) :
    BuilderSink × Nat :=
  let name := trimSpace sr.name
  if name = "" then
    let b := s.b.error sr.atSpan "rhs symbol name is empty"
    let (b, d) := b.internDummy sr.atSpan
    ({ s with b := b }, d)
  else if s.declTokens.contains name then
    let (b, t) := s.b.EnsureTerminal name sr.atSpan
    ({ s with b := b }, t)
  else
    match s.b.Lookup name with
    | some (i, _) => (s, i)
    | none =>
        if s.useHeuristicCapsAsTerminal && looksLikeTerminal name then
          let (b, t) := s.b.EnsureTerminal name sr.atSpan
          ({ s with b := b }, t)
        else
          let (b, t) := s.b.EnsureNonterminal name sr.atSpan
          ({ s with b := b }, t)

/-- Model of Go `strings.Fields`: maximal runs of non-space characters. -/
def goFields (st : String) : List String :=
  (st.split goIsSpace).filter (fun w => w ≠ "")

/-- The `%token`-and-friends registration step shared by `DirToken` and
the precedence directives: remember the name and intern it as terminal. -/
def declareTerminal (s : BuilderSink) (name : String)
    (atSpan : Option Span) : BuilderSink × Nat :=
  let s := { s with declTokens := setInsert s.declTokens name }
  let (b, t) := s.b.EnsureTerminal name atSpan
  ({ s with b := b }, t)

/-- `Directive` sink event (all directive kinds of the source). -/
def BuilderSink.Directive (s : BuilderSink) (d : Directive) :
    BuilderSink :=
  match d.kind with
  | DirStartSymbol =>
      let name := trimSpace d.value
      if name = "" then
        let b := s.b.error d.atSpan "%start_symbol requires a symbol name"
        { s with b := b }
      else
        let (b, sym) := s.b.EnsureNonterminal name d.atSpan
        { s with b := b.SetStart (some sym) d.atSpan }
  | DirToken =>
      let s :=
        if trimSpace d.value ≠ "" then
          (declareTerminal s (trimSpace d.value) d.atSpan).1
        else s
      d.list.foldl (fun s sr =>
        let name := trimSpace sr.name
        if name = "" then s
        else (declareTerminal s name sr.atSpan).1) s
  | DirType =>
      let typeTag := trimSpace d.value
      if typeTag = "" then
        let b := s.b.error d.atSpan "%type requires a type tag"
        { s with b := b }
      else
        d.list.foldl (fun s sr =>
          let name := trimSpace sr.name
          if name = "" then s
          else
            let (b, sym) := s.b.EnsureNonterminal name sr.atSpan
            let b := b.SetTypeTag (some sym) typeTag sr.atSpan
            { s with b := b,
                     declTypes := directivesSet s.declTypes name typeTag }) s
  | DirTokenType =>
      { s with b := s.b.SetDirective "token_type" d.value d.atSpan }
  | DirLeft | DirRight | DirNonassoc =>
      let assoc :=
        match d.kind with
        | DirLeft => AssocLeft
        | DirRight => AssocRight
        | DirNonassoc => AssocNonassoc
        | _ => AssocNone
      let (s, terms) := d.list.foldl
        (fun (p : BuilderSink × List (Option Nat)) sr =>
          let name := trimSpace sr.name
          if name = "" then p
          else
            let (s, t) := declareTerminal p.1 name sr.atSpan
            (s, p.2 ++ [some t])) (s, [])
      let (s, terms) :=
        if terms = [] then
          (goFields d.value).foldl
            (fun (p : BuilderSink × List (Option Nat)) name =>
              let (s, t) := declareTerminal p.1 name d.atSpan
              (s, p.2 ++ [some t])) (s, [])
        else (s, terms)
      if terms = [] then
        let b := s.b.error d.atSpan
          "precedence directive requires at least one terminal"
        { s with b := b }
      else
        let b := s.b.DefinePrecedenceGroup assoc terms d.atSpan
        { s with b := b }
  | DirInclude | DirCode | DirFallback | DirUnknown =>
      let key := trimSpace d.key
      let key := if key = "" then "directive" else key
      { s with b := s.b.SetDirective key d.value d.atSpan }

/-- `BeginRule` sink event. -/
def BuilderSink.BeginRule (s : BuilderSink) (lhs : SymRef) :
    BuilderSink :=
  let s :=
    match s.curRule with
    | some _ =>
        let b := s.b.warn lhs.atSpan
          "begin rule while previous rule still open; closing previous rule"
        { s with b := b, curRule := none, curLHS := none }
    | none => s
  let name := trimSpace lhs.name
  if name = "" then
    { s with b := s.b.error lhs.atSpan "rule LHS is empty" }
  else
    let (b, sym) := s.b.EnsureNonterminal name lhs.atSpan
    let b :=
      match lookupStr s.declTypes name with
      | some tt => if tt ≠ "" then b.SetTypeTag (some sym) tt lhs.atSpan
                   else b
      | none => b
    let (b, rb) := b.BeginRule (some sym) lhs.atSpan
    { s with b := b, curLHS := some sym, curRule := some rb }

/-- `Alternative` sink event. -/
def BuilderSink.Alternative (s : BuilderSink) (alt : Alt) : BuilderSink :=
  match s.curRule, s.curLHS with
  | some rb, some _ =>
      let (s, rhs) := alt.rhs.foldl
        (fun (p : BuilderSink × List (Option SymbolRef)) sr =>
          let (s, sym) := p.1.resolveSymbolInRHS sr
          let s :=
            if sr.typeTag ≠ "" then
              { s with b := s.b.SetTypeTag (some sym) sr.typeTag sr.atSpan }
            else s
          let (b, r) := s.b.NewRef (some sym) sr.label sr.atSpan
          ({ s with b := b }, p.2 ++ [some r])) (s, [])
      let (s, prec) :=
        match alt.prec with
        | none => (s, (none : Option Nat))
        | some ps =>
            let name := trimSpace ps.name
            if name = "" then
              let b := s.b.error ps.atSpan
                "precedence override symbol is empty"
              ({ s with b := b }, none)
            else
              let (s, t) := declareTerminal s name ps.atSpan
              (s, some t)
      { s with b := s.b.Alt rb rhs alt.action prec alt.atSpan }
  | _, _ =>
      let b := s.b.error alt.atSpan
        "alternative encountered without an open rule"
      { s with b := b }

/-- `EndRule` sink event (benign when no rule is open). -/
def BuilderSink.EndRule (s : BuilderSink) (atSpan : Option Span) :
    BuilderSink :=
  let _ := atSpan
  match s.curRule with
  | none => s
  | some rb =>
      let _ := rb.End
      { s with curRule := none, curLHS := none }

/-!
Helper lemmas (shared by several claims).
-/

lemma dropWhile_dropWhile (p : Char → Bool) (l : List Char) :
    (l.dropWhile p).dropWhile p = l.dropWhile p := by
  induction l with
  | nil => rfl
  | cons c t ih =>
      by_cases h : p c
      · simp [List.dropWhile_cons, h, ih]
      · simp [List.dropWhile_cons, h]

lemma dropWhile_cons_self (p : Char → Bool) (c : Char) (t : List Char)
    (h : (c :: t).dropWhile p = c :: t) : p c = false := by
  by_cases hp : p c
  · exfalso
    rw [List.dropWhile_cons, if_pos hp] at h
    have hlen := congrArg List.length h
    have hle := (List.dropWhile_sublist (l := t) p).length_le
    simp only [List.length_cons] at hlen
    omega
  · simpa using hp

lemma dropWhile_trimTrail (p : Char → Bool) (m : List Char)
    (hm : m.dropWhile p = m) :
    ((m.reverse.dropWhile p).reverse).dropWhile p =
      (m.reverse.dropWhile p).reverse := by
  obtain ⟨w, hw⟩ := List.dropWhile_suffix (l := m.reverse) p
  cases hu : (m.reverse.dropWhile p).reverse with
  | nil => simp
  | cons c t =>
      have hm2 : m = c :: (t ++ w.reverse) := by
        have : m.reverse.reverse = (w ++ m.reverse.dropWhile p).reverse := by
          rw [hw]
        rw [List.reverse_reverse, List.reverse_append] at this
        rw [this, hu]
        simp
      have hc : p c = false := by
        apply dropWhile_cons_self p c (t ++ w.reverse)
        rw [← hm2]
        exact hm
      rw [List.dropWhile_cons, if_neg (by simp [hc])]

lemma trimSpace_idem (s : String) :
    trimSpace (trimSpace s) = trimSpace s := by
  unfold trimSpace
  have htl : (String.mk (((s.toList.dropWhile goIsSpace).reverse.dropWhile
      goIsSpace).reverse)).toList =
      ((s.toList.dropWhile goIsSpace).reverse.dropWhile goIsSpace).reverse :=
    rfl
  rw [htl]
  have h1 : (((s.toList.dropWhile goIsSpace).reverse.dropWhile
      goIsSpace).reverse).dropWhile goIsSpace =
      ((s.toList.dropWhile goIsSpace).reverse.dropWhile goIsSpace).reverse :=
    dropWhile_trimTrail goIsSpace (s.toList.dropWhile goIsSpace)
      (dropWhile_dropWhile goIsSpace s.toList)
  rw [h1, List.reverse_reverse, dropWhile_dropWhile]

lemma lookupIdx_some (syms : List Symbol) (n : String) (i : Nat)
    (s : Symbol) (h : lookupIdx syms n = some (i, s)) :
    syms.get? i = some s ∧ s.name = n := by
  induction syms generalizing i with
  | nil => simp [lookupIdx] at h
  | cons hd tl ih =>
      by_cases hn : hd.name = n
      · rw [lookupIdx, if_pos hn] at h
        obtain ⟨hi, hs⟩ : i = 0 ∧ hd = s := by
          simpa [Prod.ext_iff, eq_comm] using h
        subst hi
        subst hs
        exact ⟨rfl, hn⟩
      · rw [lookupIdx, if_neg hn] at h
        rw [Option.map_eq_some'] at h
        obtain ⟨⟨i', s'⟩, hrec, heq⟩ := h
        obtain ⟨hi, hs⟩ : i' + 1 = i ∧ s' = s := by
          simpa [Prod.ext_iff] using heq
        subst hi
        subst hs
        obtain ⟨h1, h2⟩ := ih i' hrec
        exact ⟨by simpa using h1, h2⟩

lemma get?_concat_self (l : List Symbol) (a : Symbol) :
    (l ++ [a]).get? l.length = some a := by
  rw [List.get?_eq_getElem?]
  exact List.getElem?_concat_length l a

/-- C10 helper: `Intern` on an unknown (trimmed, non-empty) name appends
a fresh symbol carrying the trimmed name. -/
lemma intern_fresh (b : Builder) (n : String) (kind : SymbolKind)
    (sp : Option Span) (hne : trimSpace n ≠ "")
    (hnew : lookupIdx b.g.symbols (trimSpace n) = none) :
    b.Intern n kind sp =
      ({ b with g := { b.g with symbols := b.g.symbols ++
          [{ id := b.g.symbols.length, name := trimSpace n, kind := kind,
             typeTag := "", precedence := 0, assoc := AssocNone,
             declaredAt := sp }] } }, b.g.symbols.length) := by
  rw [Builder.Intern]
  simp only [if_neg hne]
  rw [Builder.internNamed, hnew]

/-- C10: `Intern` and `Lookup` normalize names by trimming surrounding
white space before the by-name table is consulted or updated; two
spellings with the same trimmed form intern to the same symbol, and a
freshly interned symbol stores the trimmed spelling in its `name`. -/
theorem C10_trim_normalization :
    (∀ (b : Builder) (n1 n2 : String), trimSpace n1 = trimSpace n2 →
      b.Lookup n1 = b.Lookup n2) ∧
    (∀ (b : Builder) (n1 n2 : String) (kind : SymbolKind)
      (sp : Option Span), trimSpace n1 = trimSpace n2 →
      b.Intern n1 kind sp = b.Intern n2 kind sp) ∧
    (∀ (b : Builder) (n : String) (kind : SymbolKind) (sp : Option Span),
      trimSpace n ≠ "" →
      lookupIdx b.g.symbols (trimSpace n) = none →
      ∃ s, (b.Intern n kind sp).1.symAt (b.Intern n kind sp).2 = some s ∧
        s.name = trimSpace n) := by
  refine ⟨?_, ?_, ?_⟩
  · intro b n1 n2 h
    rw [Builder.Lookup, Builder.Lookup, h]
  · intro b n1 n2 kind sp h
    rw [Builder.Intern, Builder.Intern, h]
  · intro b n kind sp hne hnew
    rw [intern_fresh b n kind sp hne hnew]
    exact ⟨_, get?_concat_self _ _, rfl⟩

/-- C10 witness: concrete whitespace-differing spellings of `A`. -/
theorem C10_trim_normalization_witness :
    (trimSpace " A " = trimSpace "A ") ∧
    ((NewBuilder "w").Lookup " A " = (NewBuilder "w").Lookup "A ") ∧
    ((NewBuilder "w").Intern " A " SymTerminal none =
      (NewBuilder "w").Intern "A " SymTerminal none) ∧
    (trimSpace " A " ≠ "") ∧
    (lookupIdx (NewBuilder "w").g.symbols (trimSpace " A ") = none) ∧
    (∃ s, ((NewBuilder "w").Intern " A " SymTerminal none).1.symAt
        ((NewBuilder "w").Intern " A " SymTerminal none).2 = some s ∧
        s.name = trimSpace " A ") :=
  ⟨by decide,
   C10_trim_normalization.1 (NewBuilder "w") " A " "A " (by decide),
   C10_trim_normalization.2.1 (NewBuilder "w") " A " "A " SymTerminal none
     (by decide),
   by decide,
   by decide,
   C10_trim_normalization.2.2 (NewBuilder "w") " A " SymTerminal none
     (by decide) (by decide)⟩

/-- Shared witness fixture: a fresh builder with `expr` interned as a
nonterminal (ID 0). -/
def wBuilder : Builder :=
  ((NewBuilder "w").Intern "expr" SymNonterminal none).1

/-- The symbol record `wBuilder` holds at ID 0. -/
def wExprSym : Symbol :=
  { id := 0, name := "expr", kind := SymNonterminal, typeTag := "",
    precedence := 0, assoc := AssocNone, declaredAt := none }

/-- C3: `Intern` on a known name returns the existing symbol unchanged;
a conflicting kind additionally records an error while still returning
the original; an empty (trimmed) name records an error and yields the
`<invalid>` sentinel. -/
theorem C3_intern_existing_and_empty :
    (∀ (b : Builder) (n : String) (kind : SymbolKind) (sp : Option Span)
      (i : Nat) (s : Symbol),
      trimSpace n ≠ "" →
      lookupIdx b.g.symbols (trimSpace n) = some (i, s) →
      s.kind = kind →
      b.Intern n kind sp = (b, i)) ∧
    (∀ (b : Builder) (n : String) (kind : SymbolKind) (sp : Option Span)
      (i : Nat) (s : Symbol),
      trimSpace n ≠ "" →
      lookupIdx b.g.symbols (trimSpace n) = some (i, s) →
      s.kind ≠ kind →
      b.Intern n kind sp =
        (b.error sp ("symbol " ++ quoteName (trimSpace n) ++
          " previously declared as " ++ kindString s.kind ++
          ", cannot redeclare as " ++ kindString kind), i)) ∧
    (∀ (b : Builder) (n : String) (kind : SymbolKind) (sp : Option Span),
      trimSpace n = "" →
      (b.Intern n kind sp).1.diags =
        b.diags ++ [errD sp "symbol name is empty"] ∧
      ∃ s, (b.Intern n kind sp).1.symAt (b.Intern n kind sp).2 = some s ∧
        s.name = "<invalid>") := by
  refine ⟨?_, ?_, ?_⟩
  · intro b n kind sp i s hne hl hk
    rw [Builder.Intern]
    simp only [if_neg hne]
    rw [Builder.internNamed, hl]
    simp [hk]
  · intro b n kind sp i s hne hl hk
    rw [Builder.Intern]
    simp only [if_neg hne]
    rw [Builder.internNamed, hl]
    simp [hk]
  · intro b n kind sp he
    rw [Builder.Intern]
    simp only [if_pos he]
    rw [Builder.internDummy]
    cases hl : lookupIdx (Builder.error b sp "symbol name is empty").g.symbols
        "<invalid>" with
    | none =>
        rw [Builder.internNamed, hl]
        exact ⟨rfl, ⟨_, get?_concat_self _ _, rfl⟩⟩
    | some p =>
        obtain ⟨i, s⟩ := p
        obtain ⟨h1, h2⟩ := lookupIdx_some _ _ _ _ hl
        exact ⟨rfl, ⟨s, h1, h2⟩⟩

/-- C3 witness: the three `Intern` behaviors exercised on `wBuilder`. -/
theorem C3_intern_existing_and_empty_witness :
    (trimSpace "expr" ≠ "" ∧
     lookupIdx wBuilder.g.symbols (trimSpace "expr") = some (0, wExprSym) ∧
     wExprSym.kind = SymNonterminal ∧
     wBuilder.Intern "expr" SymNonterminal none = (wBuilder, 0)) ∧
    (wExprSym.kind ≠ SymTerminal ∧
     wBuilder.Intern "expr" SymTerminal none =
       (wBuilder.error none ("symbol " ++ quoteName (trimSpace "expr") ++
         " previously declared as " ++ kindString wExprSym.kind ++
         ", cannot redeclare as " ++ kindString SymTerminal), 0)) ∧
    (trimSpace "  " = "" ∧
     (wBuilder.Intern "  " SymNonterminal none).1.diags =
       wBuilder.diags ++ [errD none "symbol name is empty"] ∧
     ∃ s, (wBuilder.Intern "  " SymNonterminal none).1.symAt
         ((wBuilder.Intern "  " SymNonterminal none).2) = some s ∧
       s.name = "<invalid>") :=
  ⟨⟨by decide, by decide, by decide,
    C3_intern_existing_and_empty.1 wBuilder "expr" SymNonterminal none 0
      wExprSym (by decide) (by decide) (by decide)⟩,
   ⟨by decide,
    C3_intern_existing_and_empty.2.1 wBuilder "expr" SymTerminal none 0
      wExprSym (by decide) (by decide) (by decide)⟩,
   ⟨by decide,
    (C3_intern_existing_and_empty.2.2 wBuilder "  " SymNonterminal none
      (by decide)).1,
    (C3_intern_existing_and_empty.2.2 wBuilder "  " SymNonterminal none
      (by decide)).2⟩⟩

lemma lt_of_get?_some (l : List Symbol) (i : Nat) (s : Symbol)
    (h : l.get? i = some s) : i < l.length := by
  by_contra hge
  rw [List.get?_eq_none.mpr (by omega)] at h
  exact Option.noConfusion h

lemma get?_set_self (l : List Symbol) (i : Nat) (s a : Symbol)
    (h : l.get? i = some s) : (l.set i a).get? i = some a := by
  rw [List.get?_eq_getElem?]
  exact List.getElem?_set_self (lt_of_get?_some l i s h)

/-- C6: a conflicting non-empty `%type` tag draws an error and leaves
the builder's grammar untouched (first assignment wins); re-applying the
identical tag records no diagnostic and leaves the tag in place. -/
theorem C6_type_tag_conflict :
    (∀ (b : Builder) (i : Nat) (s : Symbol) (tag : String)
      (sp : Option Span),
      b.symAt i = some s →
      trimSpace tag ≠ "" →
      s.typeTag ≠ "" →
      s.typeTag ≠ trimSpace tag →
      b.SetTypeTag (some i) tag sp =
        b.error sp ("symbol " ++ quoteName s.name ++
          " already has type " ++ quoteName s.typeTag ++
          "; cannot set to " ++ quoteName (trimSpace tag))) ∧
    (∀ (b : Builder) (i : Nat) (s : Symbol) (tag : String)
      (sp : Option Span),
      b.symAt i = some s →
      trimSpace tag ≠ "" →
      s.typeTag = trimSpace tag →
      (b.SetTypeTag (some i) tag sp).diags = b.diags ∧
      (b.SetTypeTag (some i) tag sp).symAt i = some s) := by
  constructor
  · intro b i s tag sp hs hne hnt hdiff
    have hs' : b.g.symbols.get? i = some s := hs
    simp only [Builder.SetTypeTag, if_neg hne, hs']
    rw [if_pos ⟨hnt, hdiff⟩]
  · intro b i s tag sp hs hne hsame
    have hs' : b.g.symbols.get? i = some s := hs
    simp only [Builder.SetTypeTag, if_neg hne, hs']
    rw [if_neg (by
      intro hcon
      exact hcon.2 hsame)]
    simp only [Builder.updateSymbolAt, hs']
    refine ⟨by trivial, ?_⟩
    show (b.g.symbols.set i { s with typeTag := trimSpace tag }).get? i =
      some s
    rw [← hsame]
    exact get?_set_self _ _ _ _ hs

/-- C6 witness: conflicting and identical re-assignment of a tag on a
symbol whose tag is `int`. -/
theorem C6_type_tag_conflict_witness :
    ((wBuilder.SetTypeTag (some 0) "int" none).symAt 0 =
       some { wExprSym with typeTag := "int" } ∧
     trimSpace "float" ≠ "" ∧
     ({ wExprSym with typeTag := "int" } : Symbol).typeTag ≠ "" ∧
     ({ wExprSym with typeTag := "int" } : Symbol).typeTag ≠
       trimSpace "float" ∧
     (wBuilder.SetTypeTag (some 0) "int" none).SetTypeTag (some 0) "float"
         none =
       (wBuilder.SetTypeTag (some 0) "int" none).error none
         ("symbol " ++ quoteName "expr" ++ " already has type " ++
          quoteName "int" ++ "; cannot set to " ++
          quoteName (trimSpace "float"))) ∧
    (({ wExprSym with typeTag := "int" } : Symbol).typeTag =
       trimSpace "int" ∧
     ((wBuilder.SetTypeTag (some 0) "int" none).SetTypeTag (some 0) "int"
        none).diags = (wBuilder.SetTypeTag (some 0) "int" none).diags ∧
     ((wBuilder.SetTypeTag (some 0) "int" none).SetTypeTag (some 0) "int"
        none).symAt 0 = some { wExprSym with typeTag := "int" }) :=
  ⟨⟨by decide, by decide, by decide, by decide,
    C6_type_tag_conflict.1 (wBuilder.SetTypeTag (some 0) "int" none) 0
      { wExprSym with typeTag := "int" } "float" none (by decide)
      (by decide) (by decide) (by decide)⟩,
   ⟨by decide,
    (C6_type_tag_conflict.2 (wBuilder.SetTypeTag (some 0) "int" none) 0
      { wExprSym with typeTag := "int" } "int" none (by decide)
      (by decide) (by decide)).1,
    (C6_type_tag_conflict.2 (wBuilder.SetTypeTag (some 0) "int" none) 0
      { wExprSym with typeTag := "int" } "int" none (by decide)
      (by decide) (by decide)).2⟩⟩

/-- C8: an explicit `%start_symbol` directive resolving to a
nonterminal sets the start symbol; when no start symbol is set yet,
`BeginRule` infers it from the rule's (nonterminal) LHS, and a start
symbol once set is not changed by later `BeginRule`s; `SetStart` on a
terminal records an error and leaves the start symbol unchanged. -/
theorem C8_start_selection :
    (∀ (s : BuilderSink) (d : Directive) (b2 : Builder) (i : Nat)
      (sym : Symbol),
      d.kind = DirStartSymbol →
      trimSpace d.value ≠ "" →
      s.b.EnsureNonterminal (trimSpace d.value) d.atSpan = (b2, i) →
      b2.symAt i = some sym →
      sym.kind = SymNonterminal →
      (s.Directive d).b.g.start = some i) ∧
    (∀ (b : Builder) (l : Nat) (sp : Option Span) (sym : Symbol),
      b.symAt l = some sym →
      sym.kind = SymNonterminal →
      b.g.start = none →
      ((b.BeginRule (some l) sp).1).g.start = some l) ∧
    (∀ (b : Builder) (l : Option Nat) (sp : Option Span) (s0 : Nat),
      b.g.start = some s0 →
      ((b.BeginRule l sp).1).g.start = some s0) ∧
    (∀ (b : Builder) (l : Nat) (sp : Option Span) (sym : Symbol),
      b.symAt l = some sym →
      sym.kind = SymTerminal →
      b.SetStart (some l) sp =
        b.error sp ("start symbol " ++ quoteName sym.name ++
          " must be a nonterminal")) := by
  have setStartNT : ∀ (b : Builder) (i : Nat) (sym : Symbol),
      b.g.symbols.get? i = some sym → sym.kind = SymNonterminal →
      ∀ sp, (b.SetStart (some i) sp).g.start = some i := by
    intro b i sym hsym hk sp
    simp only [Builder.SetStart, hsym]
    rw [if_neg (not_not_intro hk)]
  have key : ∀ (b : Builder) (l0 : Nat) (sp : Option Span) (s0 : Nat),
      b.g.start = some s0 →
      ((b.BeginRule (some l0) sp).1).g.start = some s0 := by
    intro b l0 sp s0 hstart
    simp only [Builder.BeginRule]
    by_cases hk : (b.g.symbols.get? l0).map Symbol.kind =
        some SymNonterminal
    · rw [if_neg (not_not_intro hk)]
      rw [if_neg (by
        intro h
        have h1 : b.g.start = none := h.1
        rw [hstart] at h1
        exact Option.noConfusion h1)]
      exact hstart
    · rw [if_pos hk]
      rw [if_neg (by
        intro h
        have h1 : b.g.start = none := h.1
        rw [hstart] at h1
        exact Option.noConfusion h1)]
      exact hstart
  refine ⟨?_, ?_, ?_, ?_⟩
  · intro s d b2 i sym hk hne hens hsym hnt
    obtain ⟨kind, dsp, dkey, value, list⟩ := d
    simp only at hk hne hens
    subst hk
    simp only [BuilderSink.Directive, if_neg hne]
    rw [hens]
    exact setStartNT b2 i sym hsym hnt dsp
  · intro b l sp sym hsym hk hstart
    have hsym' : b.g.symbols.get? l = some sym := hsym
    simp only [Builder.BeginRule, hsym']
    rw [if_neg (not_not_intro (by simp [hk]))]
    rw [if_pos ⟨hstart, by simp [hk]⟩]
  · intro b l sp s0 hstart
    cases l with
    | some l0 => exact key b l0 sp s0 hstart
    | none =>
        cases hl : lookupIdx b.g.symbols "<invalid>" with
        | some p =>
            obtain ⟨j, s⟩ := p
            have heq : b.BeginRule none sp = b.BeginRule (some j) sp := by
              simp only [Builder.BeginRule, Builder.internDummy, hl]
            rw [heq]
            exact key b j sp s0 hstart
        | none =>
            have heq : b.BeginRule none sp =
                ((b.internNamed "<invalid>" SymNonterminal sp).1).BeginRule
                  (some (b.internNamed "<invalid>" SymNonterminal sp).2)
                  sp := by
              simp only [Builder.BeginRule, Builder.internDummy, hl]
            rw [heq]
            apply key
            rw [Builder.internNamed, hl]
            exact hstart
  · intro b l sp sym hsym hk
    have hsym' : b.g.symbols.get? l = some sym := hsym
    simp only [Builder.SetStart, hsym']
    rw [if_pos (by simp [hk])]

/-- Witness fixture: the `NUM` terminal interned on top of `wBuilder`. -/
def wNumSym : Symbol :=
  { id := 1, name := "NUM", kind := SymTerminal, typeTag := "",
    precedence := 0, assoc := AssocNone, declaredAt := none }

/-- C8 witness: all four start-selection behaviors on concrete states. -/
theorem C8_start_selection_witness :
    (((NewBuilderSink wBuilder).b.EnsureNonterminal (trimSpace "expr")
        none = (wBuilder, 0)) ∧
     wBuilder.symAt 0 = some wExprSym ∧
     wExprSym.kind = SymNonterminal ∧
     ((NewBuilderSink wBuilder).Directive
        { kind := DirStartSymbol, atSpan := none, key := "",
          value := "expr", list := [] }).b.g.start = some 0) ∧
    (wBuilder.g.start = none ∧
     ((wBuilder.BeginRule (some 0) none).1).g.start = some 0) ∧
    (((wBuilder.BeginRule (some 0) none).1.BeginRule (some 0)
        none).1.g.start = some 0) ∧
    ((wBuilder.Intern "NUM" SymTerminal none).1.symAt 1 = some wNumSym ∧
     wNumSym.kind = SymTerminal ∧
     (wBuilder.Intern "NUM" SymTerminal none).1.SetStart (some 1) none =
       (wBuilder.Intern "NUM" SymTerminal none).1.error none
         ("start symbol " ++ quoteName "NUM" ++
          " must be a nonterminal")) :=
  ⟨⟨by decide, by decide, by decide,
    C8_start_selection.1 (NewBuilderSink wBuilder)
      { kind := DirStartSymbol, atSpan := none, key := "",
        value := "expr", list := [] } wBuilder 0 wExprSym (by decide)
      (by decide) (by decide) (by decide) (by decide)⟩,
   ⟨by decide,
    C8_start_selection.2.1 wBuilder 0 none wExprSym (by decide)
      (by decide) (by decide)⟩,
   C8_start_selection.2.2.1 ((wBuilder.BeginRule (some 0) none).1)
     (some 0) none 0 (by decide),
   ⟨by decide, by decide,
    C8_start_selection.2.2.2 (wBuilder.Intern "NUM" SymTerminal none).1 1
      none wNumSym (by decide) (by decide)⟩⟩

/-- A plain parser-side symbol reference with just a name. -/
def ref (n : String) : SymRef :=
  { name := n, atSpan := none, label := "", typeTag := "" }

/-- The builder-event image of the grammar file `expr ::= NUM.` (the
augmentation example of the repository's lesson 06). -/
def c1Sink : BuilderSink :=
  (((NewBuilderSink (NewBuilder "test.y")).BeginRule (ref "expr")).Alternative
    { atSpan := none, rhs := [ref "NUM"], action := none,
      prec := none }).EndRule none

/-- The builder after `Finalize` on the `expr ::= NUM.` grammar. -/
def c1Final : Builder := c1Sink.b.Finalize

/-- The builder-event image of
`expr ::= NUM.  expr ::= loop.  loop ::= loop.` — `loop` is a
non-productive nonterminal. -/
def c2Sink : BuilderSink :=
  (((((((((NewBuilderSink (NewBuilder "test.y")).BeginRule
    (ref "expr")).Alternative
    { atSpan := none, rhs := [ref "NUM"], action := none,
      prec := none }).EndRule none).BeginRule (ref "expr")).Alternative
    { atSpan := none, rhs := [ref "loop"], action := none,
      prec := none }).EndRule none).BeginRule (ref "loop")).Alternative
    { atSpan := none, rhs := [ref "loop"], action := none,
      prec := none }).EndRule none

/-- The builder after `Finalize` on the `c2Sink` grammar. -/
def c2Final : Builder := c2Sink.b.Finalize

/-- The builder-event image of a grammar whose single rule has zero
alternatives (`BeginRule` immediately followed by `EndRule`). -/
def c7Sink : BuilderSink :=
  ((NewBuilderSink (NewBuilder "test.y")).BeginRule (ref "expr")).EndRule
    none

/-- The builder after `Finalize` on the `c7Sink` grammar. -/
def c7Final : Builder := c7Sink.b.Finalize

/-- C1 (divergence evidence): `Finalize` never modifies the grammar —
in particular it appends no augmentation rule.  On the lesson's own
example `expr ::= NUM.` the finalized grammar has no error diagnostics,
its rule list is exactly the one rule the parser events built, no rule
has LHS `$accept`, and no `$accept` symbol is even interned. -/
theorem C1_finalize_appends_no_accept_rule :
    (∀ b : Builder, (Builder.Finalize b).g = b.g) ∧
    c1Final.HasErrors = false ∧
    c1Final.g.rules = c1Sink.b.g.rules ∧
    (∀ r ∈ c1Final.g.rules, symNameOf c1Final.g r.lhs ≠ "$accept") ∧
    lookupIdx c1Final.g.symbols "$accept" = none :=
  ⟨fun _ => rfl, by decide, by decide, by decide, by decide⟩

set_option maxRecDepth 16384

/-- One step of the spec's productivity fixed point (§4.2 check 6 of
the spec; also lesson 06's `findProductive`): a nonterminal joins the
productive set when some alternative of one of its rules has an RHS
lying entirely in the set.  The shipped `Finalize` computes no such
set; this definition exists only to state that divergence. -/
def productiveStep (g : Grammar) (ps : List Nat) : List Nat :=
  ps ++ ((List.range g.symbols.length).filter (fun j =>
    ¬ ps.contains j ∧ g.rules.any (fun r => r.lhs = j ∧
      r.alternatives.any (fun alt =>
        alt.rhs.all (fun sr =>
          match sr with
          | some s => ps.contains s.sym
          | none => false)))))

/-- Fuelled iteration of `productiveStep`. -/
def productiveIter (g : Grammar) : Nat → List Nat → List Nat
  | 0, ps => ps
  | n + 1, ps => productiveIter g n (productiveStep g ps)

/-- The spec's productive set: terminals seeded, iterated to fixed
point (`symbols.length` rounds reach it). -/
def specProductiveSet (g : Grammar) : List Nat :=
  productiveIter g g.symbols.length
    ((List.range g.symbols.length).filter (fun j =>
      symKindOf g j = some SymTerminal))

/-- C2 (divergence evidence): in the grammar
`expr ::= NUM. expr ::= loop. loop ::= loop.` the nonterminal `loop`
(ID 2) is non-productive under the spec's fixed point, yet no
diagnostic emitted by `Finalize` — of any level — even mentions `loop`. -/
theorem C2_no_productivity_diagnostic :
    symNameOf c2Final.g 2 = "loop" ∧
    symKindOf c2Final.g 2 = some SymNonterminal ∧
    (2 ∉ specProductiveSet c2Final.g) ∧
    (∀ d ∈ c2Final.diags, ¬ ("loop".toList <:+: d.msg.toList)) := by
  refine ⟨by decide, by decide, by decide, by decide⟩

/-- C7 counterexample: a grammar with a rule with zero alternatives on
which `Finalize` emits no error-level diagnostic at all — the
"has no alternatives" report is warning-level. -/
theorem C7_empty_rule_not_an_error :
    (∃ r ∈ c7Sink.b.g.rules, r.alternatives = []) ∧
    (warnD none ("rule " ++ quoteName "expr" ++ " has no alternatives") ∈
      c7Final.diags) ∧
    (∀ d ∈ c7Final.diags, d.level ≠ DiagError) := by
  refine ⟨by decide, by decide, by decide⟩

/-- C7 amended: for every grammar, a rule with zero alternatives draws
a warning-level (not error-level) "has no alternatives" diagnostic from
`Finalize`. -/
theorem C7_empty_rule_warned :
    ∀ (b : Builder) (r : Rule), r ∈ b.g.rules → r.alternatives = [] →
      warnD r.atSpan ("rule " ++ quoteName (symNameOf b.g r.lhs) ++
        " has no alternatives") ∈ (Builder.Finalize b).diags := by
  intro b r hr halts
  have hmem : warnD r.atSpan ("rule " ++ quoteName (symNameOf b.g r.lhs)
      ++ " has no alternatives") ∈ productionDiags b.g := by
    rw [productionDiags]
    rw [List.mem_flatMap]
    refine ⟨r, hr, ?_⟩
    rw [if_pos halts]
    exact List.mem_singleton.mpr rfl
  show _ ∈ b.diags ++ finalizeDiags b.g
  apply List.mem_append_right
  rw [finalizeDiags]
  rw [if_neg (by
    intro h
    rw [h] at hr
    exact absurd hr (List.not_mem_nil r))]
  simp only [List.mem_append]
  tauto

/-- C7 amended witness: the `c7Sink` grammar's empty rule. -/
theorem C7_empty_rule_warned_witness :
    (({ lhs := 0, alternatives := [], atSpan := none } : Rule) ∈
      c7Sink.b.g.rules) ∧
    (({ lhs := 0, alternatives := [], atSpan := none } : Rule).alternatives
      = []) ∧
    (warnD none ("rule " ++ quoteName (symNameOf c7Sink.b.g 0) ++
      " has no alternatives") ∈ (Builder.Finalize c7Sink.b).diags) :=
  ⟨by decide, by decide,
   C7_empty_rule_warned c7Sink.b
     { lhs := 0, alternatives := [], atSpan := none } (by decide)
     (by decide)⟩

/-!
C9: density of symbol IDs, stated over the full Builder operation
surface via an operation datatype.
-/

/-- One Builder API call (return values discarded; only the builder
state matters for the invariant). -/
inductive BuilderOp where
  | OpIntern (name : String) (kind : SymbolKind) (sp : Option Span)
  | OpSetTypeTag (sym : Option Nat) (tag : String) (sp : Option Span)
  | OpSetStart (sym : Option Nat) (sp : Option Span)
  | OpDefinePrecedenceGroup (assoc : Assoc) (ts : List (Option Nat))
      (sp : Option Span)
  | OpBeginRule (lhs : Option Nat) (sp : Option Span)
  | OpAlt (rb : RuleBuilder) (rhs : List (Option SymbolRef))
      (action : Option Action) (prec : Option Nat) (sp : Option Span)
  | OpNewRef (sym : Option Nat) (label : String) (sp : Option Span)
  | OpSetDirective (k v : String) (sp : Option Span)
  | OpFinalize
deriving DecidableEq

/-- Apply one Builder API call to a builder state. -/
def applyOp (b : Builder) (op : BuilderOp) : Builder :=
  match op with
  | .OpIntern n k sp => (b.Intern n k sp).1
  | .OpSetTypeTag s t sp => b.SetTypeTag s t sp
  | .OpSetStart s sp => b.SetStart s sp
  | .OpDefinePrecedenceGroup a ts sp => b.DefinePrecedenceGroup a ts sp
  | .OpBeginRule l sp => (b.BeginRule l sp).1
  | .OpAlt rb rhs act p sp => b.Alt rb rhs act p sp
  | .OpNewRef s lb sp => (b.NewRef s lb sp).1
  | .OpSetDirective k v sp => b.SetDirective k v sp
  | .OpFinalize => b.Finalize

/-- Dense symbol IDs: the symbol stored at index `i` carries ID `i`. -/
def denseIDs (g : Grammar) : Prop :=
  ∀ i s, g.symbols.get? i = some s → s.id = i

lemma denseIDs_of_symbols_eq {g1 g2 : Grammar}
    (h : g2.symbols = g1.symbols) (hd : denseIDs g1) : denseIDs g2 := by
  intro i s hs
  rw [h] at hs
  exact hd i s hs

lemma get?_append_left (l1 l2 : List Symbol) (i : Nat)
    (h : i < l1.length) : (l1 ++ l2).get? i = l1.get? i := by
  rw [List.get?_eq_getElem?, List.get?_eq_getElem?]
  exact List.getElem?_append_left h

lemma denseList_append (l : List Symbol)
    (hd : ∀ i x, l.get? i = some x → x.id = i) (s : Symbol)
    (hid : s.id = l.length) :
    ∀ i x, (l ++ [s]).get? i = some x → x.id = i := by
  intro i x hx
  rcases lt_trichotomy i l.length with hlt | heq | hgt
  · rw [get?_append_left _ _ _ hlt] at hx
    exact hd i x hx
  · subst heq
    rw [get?_concat_self] at hx
    cases hx
    exact hid
  · have hlen : (l ++ [s]).length ≤ i := by
      rw [List.length_append]
      simp only [List.length_singleton]
      omega
    rw [List.get?_eq_none.mpr hlen] at hx
    exact Option.noConfusion hx

lemma internNamed_dense (b : Builder) (n : String) (k : SymbolKind)
    (sp : Option Span) (hd : denseIDs b.g) :
    denseIDs ((b.internNamed n k sp).1).g := by
  unfold Builder.internNamed
  split
  · split
    · exact hd
    · exact hd
  · intro i s hs
    exact denseList_append b.g.symbols hd
      { id := b.g.symbols.length, name := n, kind := k, typeTag := "",
        precedence := 0, assoc := AssocNone, declaredAt := sp } rfl i s hs

lemma internDummy_dense (b : Builder) (sp : Option Span)
    (hd : denseIDs b.g) : denseIDs ((b.internDummy sp).1).g := by
  unfold Builder.internDummy
  split
  · exact hd
  · exact internNamed_dense b "<invalid>" SymNonterminal sp hd

lemma intern_dense (b : Builder) (n : String) (k : SymbolKind)
    (sp : Option Span) (hd : denseIDs b.g) :
    denseIDs ((b.Intern n k sp).1).g := by
  rw [Builder.Intern]
  by_cases he : trimSpace n = ""
  · rw [if_pos he]
    exact internDummy_dense _ sp hd
  · rw [if_neg he]
    exact internNamed_dense b (trimSpace n) k sp hd

lemma updateSymbolAt_dense (b : Builder) (i : Nat) (f : Symbol → Symbol)
    (hf : ∀ s, (f s).id = s.id) (hd : denseIDs b.g) :
    denseIDs (b.updateSymbolAt i f).g := by
  cases hs : b.g.symbols.get? i with
  | none =>
      simp only [Builder.updateSymbolAt, hs]
      exact hd
  | some s =>
      simp only [Builder.updateSymbolAt, hs]
      show ∀ j x, (b.g.symbols.set i (f s)).get? j = some x → x.id = j
      intro j x hx
      by_cases hij : j = i
      · subst hij
        rw [get?_set_self _ _ s _ hs] at hx
        cases hx
        rw [hf s]
        exact hd j s hs
      · rw [List.get?_eq_getElem?, List.getElem?_set_ne
          (fun h => hij h.symm), ← List.get?_eq_getElem?] at hx
        exact hd j x hx

lemma setTypeTag_dense (b : Builder) (s : Option Nat) (t : String)
    (sp : Option Span) (hd : denseIDs b.g) :
    denseIDs (b.SetTypeTag s t sp).g := by
  cases s with
  | none => exact hd
  | some i =>
      cases hs : b.g.symbols.get? i with
      | none =>
          simp only [Builder.SetTypeTag, hs]
          split
          · exact hd
          · exact hd
      | some sym =>
          simp only [Builder.SetTypeTag, hs]
          split
          · exact hd
          · split
            · exact hd
            · exact updateSymbolAt_dense b _ _ (fun _ => rfl) hd

lemma ite_symbols_eq (c : Prop) [Decidable c] (x y : Builder)
    {z : List Symbol} (hx : x.g.symbols = z) (hy : y.g.symbols = z) :
    (if c then x else y).g.symbols = z := by
  split
  · exact hx
  · exact hy

lemma setStart_symbols (b : Builder) (s : Option Nat) (sp : Option Span) :
    (b.SetStart s sp).g.symbols = b.g.symbols := by
  cases s with
  | none => rfl
  | some i =>
      cases hs : b.g.symbols.get? i with
      | none => simp only [Builder.SetStart, hs]
      | some sym =>
          simp only [Builder.SetStart, hs]
          split
          · rfl
          · cases hst : b.g.start with
            | none => rfl
            | some old => exact ite_symbols_eq _ _ _ rfl rfl

lemma precGroupStep_dense (assoc : Assoc) (level : Nat)
    (sp : Option Span) (b : Builder) (t : Option Nat)
    (hd : denseIDs b.g) :
    denseIDs (precGroupStep assoc level sp b t).g := by
  unfold precGroupStep
  split
  · exact hd
  · split
    · exact hd
    · split
      · exact hd
      · split
        · exact hd
        · exact updateSymbolAt_dense b _ _ (fun _ => rfl) hd

lemma foldl_preserve {α : Type} (P : Builder → Prop)
    (step : Builder → α → Builder)
    (hstep : ∀ b a, P b → P (step b a)) :
    ∀ (l : List α) (b : Builder), P b → P (l.foldl step b) := by
  intro l
  induction l with
  | nil => intro b hb; exact hb
  | cons a t ih => intro b hb; exact ih (step b a) (hstep b a hb)

lemma definePrecedenceGroup_dense (b : Builder) (a : Assoc)
    (ts : List (Option Nat)) (sp : Option Span) (hd : denseIDs b.g) :
    denseIDs (b.DefinePrecedenceGroup a ts sp).g := by
  rw [Builder.DefinePrecedenceGroup]
  by_cases ha : a = AssocNone
  · rw [if_pos ha]
    exact hd
  · rw [if_neg ha]
    exact foldl_preserve (fun b2 => denseIDs b2.g) _
      (fun b2 t h => precGroupStep_dense a _ sp b2 t h) ts _ hd

lemma beginRule_symbols_some (b : Builder) (l0 : Nat) (sp : Option Span) :
    ((b.BeginRule (some l0) sp).1).g.symbols = b.g.symbols := by
  simp only [Builder.BeginRule]
  split_ifs <;> rfl

lemma beginRule_dense (b : Builder) (l : Option Nat) (sp : Option Span)
    (hd : denseIDs b.g) : denseIDs ((b.BeginRule l sp).1).g := by
  cases l with
  | some l0 =>
      exact denseIDs_of_symbols_eq (beginRule_symbols_some b l0 sp) hd
  | none =>
      have hdummy : denseIDs ((b.internDummy sp).1).g :=
        internDummy_dense b sp hd
      have hsymbols : ((b.BeginRule none sp).1).g.symbols =
          ((b.internDummy sp).1).g.symbols := by
        simp only [Builder.BeginRule]
        rcases h : b.internDummy sp with ⟨b1, d⟩
        split_ifs <;> rfl
      exact denseIDs_of_symbols_eq hsymbols hdummy

lemma alt_symbols (b : Builder) (rb : RuleBuilder)
    (rhs : List (Option SymbolRef)) (act : Option Action)
    (p : Option Nat) (sp : Option Span) :
    (b.Alt rb rhs act p sp).g.symbols = b.g.symbols := by
  have hfoldg : ∀ (l : List Nat) (b0 : Builder),
      (l.foldl (fun b2 i =>
        if rhs.get? i = some none then
          b2.error sp ("rhs symbol at position " ++ toString i ++ " is nil")
        else b2) b0).g = b0.g := by
    intro l
    induction l with
    | nil => intro b0; rfl
    | cons a t ih =>
        intro b0
        rw [List.foldl_cons, ih]
        by_cases hnil : rhs.get? a = some none
        · rw [if_pos hnil]
          rfl
        · rw [if_neg hnil]
  rw [Builder.Alt]
  split
  · rfl
  · generalize hB : (List.range rhs.length).foldl
      (fun b2 i =>
        if rhs.get? i = some none then
          b2.error sp ("rhs symbol at position " ++ toString i ++ " is nil")
        else b2) b = B1
    have hg : B1.g = b.g := by
      rw [← hB]
      exact hfoldg _ b
    repeat' split <;> simp_all [Builder.error]

lemma newRef_dense (b : Builder) (s : Option Nat) (lb : String)
    (sp : Option Span) (hd : denseIDs b.g) :
    denseIDs ((b.NewRef s lb sp).1).g := by
  unfold Builder.NewRef
  cases s with
  | none =>
      rcases h : b.internDummy sp with ⟨b1, d⟩
      have hdum : denseIDs ((b.internDummy sp).1).g :=
        internDummy_dense b sp hd
      rw [h] at hdum
      exact hdum
  | some i => exact hd

lemma setDirective_symbols (b : Builder) (k v : String)
    (sp : Option Span) :
    (b.SetDirective k v sp).g.symbols = b.g.symbols := by
  simp only [Builder.SetDirective]
  split_ifs <;> rfl

/-- C9: symbol IDs are dense — `Symbols[i].ID = i` — after every
sequence of Builder operations starting from `NewBuilder`, and every
single Builder operation preserves the invariant. -/
theorem C9_dense_symbol_ids :
    (∀ ops : List BuilderOp,
      denseIDs (ops.foldl applyOp (NewBuilder "")).g) ∧
    (∀ (b : Builder) (op : BuilderOp),
      denseIDs b.g → denseIDs (applyOp b op).g) := by
  have hstep : ∀ (b : Builder) (op : BuilderOp),
      denseIDs b.g → denseIDs (applyOp b op).g := by
    intro b op hd
    cases op with
    | OpIntern n k sp => exact intern_dense b n k sp hd
    | OpSetTypeTag s t sp => exact setTypeTag_dense b s t sp hd
    | OpSetStart s sp =>
        exact denseIDs_of_symbols_eq (setStart_symbols b s sp) hd
    | OpDefinePrecedenceGroup a ts sp =>
        exact definePrecedenceGroup_dense b a ts sp hd
    | OpBeginRule l sp => exact beginRule_dense b l sp hd
    | OpAlt rb rhs act p sp =>
        exact denseIDs_of_symbols_eq (alt_symbols b rb rhs act p sp) hd
    | OpNewRef s lb sp => exact newRef_dense b s lb sp hd
    | OpSetDirective k v sp =>
        exact denseIDs_of_symbols_eq (setDirective_symbols b k v sp) hd
    | OpFinalize => exact hd
  refine ⟨?_, hstep⟩
  have hfold : ∀ (ops : List BuilderOp) (b : Builder),
      denseIDs b.g → denseIDs (ops.foldl applyOp b).g :=
    fun ops => foldl_preserve (fun b2 => denseIDs b2.g) applyOp
      (fun b2 op h => hstep b2 op h) ops
  intro ops
  apply hfold
  intro i s hs
  simp [NewBuilder] at hs

/-- C9 witness: the invariant holds on the empty builder and is
preserved by a concrete `Intern`. -/
theorem C9_dense_symbol_ids_witness :
    denseIDs (NewBuilder "").g ∧
    denseIDs (applyOp (NewBuilder "")
      (BuilderOp.OpIntern "x" SymTerminal none)).g :=
  ⟨by intro i s hs; simp [NewBuilder] at hs,
   C9_dense_symbol_ids.2 (NewBuilder "")
     (BuilderOp.OpIntern "x" SymTerminal none)
     (by intro i s hs; simp [NewBuilder] at hs)⟩

/-!
C4: precedence groups.
-/

/-- A sequence of `DefinePrecedenceGroup` calls. -/
def applyPrecGroups (b : Builder)
    (gs : List (Assoc × List (Option Nat) × Option Span)) : Builder :=
  gs.foldl (fun b gr => b.DefinePrecedenceGroup gr.1 gr.2.1 gr.2.2) b

lemma precGroupStep_counter (a : Assoc) (lvl : Nat) (sp : Option Span)
    (b : Builder) (t : Option Nat) :
    (precGroupStep a lvl sp b t).precedenceCounter =
      b.precedenceCounter := by
  cases t with
  | none => rfl
  | some j =>
      cases hs : b.g.symbols.get? j with
      | none => simp only [precGroupStep, hs]
      | some s =>
          simp only [precGroupStep, hs]
          split
          · rfl
          · split
            · rfl
            · simp only [Builder.updateSymbolAt, hs]

lemma precGroupStep_symAt_other (a : Assoc) (lvl : Nat)
    (sp : Option Span) (b : Builder) (t : Option Nat) (i : Nat)
    (ht : t ≠ some i) :
    (precGroupStep a lvl sp b t).g.symbols.get? i =
      b.g.symbols.get? i := by
  cases t with
  | none => rfl
  | some j =>
      have hji : j ≠ i := fun h => ht (by rw [h])
      cases hs : b.g.symbols.get? j with
      | none => simp only [precGroupStep, hs]
      | some s =>
          simp only [precGroupStep, hs]
          split
          · rfl
          · split
            · rfl
            · simp only [Builder.updateSymbolAt, hs]
              rw [List.get?_eq_getElem?, List.getElem?_set_ne hji,
                ← List.get?_eq_getElem?]

lemma precGroupStep_diags_extend (a : Assoc) (lvl : Nat)
    (sp : Option Span) (b : Builder) (t : Option Nat) :
    ∃ e, (precGroupStep a lvl sp b t).diags = b.diags ++ e := by
  cases t with
  | none => exact ⟨[], (List.append_nil _).symm⟩
  | some j =>
      cases hs : b.g.symbols.get? j with
      | none =>
          simp only [precGroupStep, hs]
          exact ⟨[], (List.append_nil _).symm⟩
      | some s =>
          simp only [precGroupStep, hs]
          split
          · exact ⟨_, rfl⟩
          · split
            · exact ⟨_, rfl⟩
            · simp only [Builder.updateSymbolAt, hs]
              exact ⟨[], (List.append_nil _).symm⟩

lemma precFold_diags_extend (a : Assoc) (lvl : Nat) (sp : Option Span) :
    ∀ (ts : List (Option Nat)) (b : Builder),
      ∃ e, (ts.foldl (precGroupStep a lvl sp) b).diags = b.diags ++ e := by
  intro ts
  induction ts with
  | nil => intro b; exact ⟨[], (List.append_nil _).symm⟩
  | cons t rest ih =>
      intro b
      rw [List.foldl_cons]
      obtain ⟨e1, he1⟩ := precGroupStep_diags_extend a lvl sp b t
      obtain ⟨e2, he2⟩ := ih (precGroupStep a lvl sp b t)
      exact ⟨e1 ++ e2, by rw [he2, he1, List.append_assoc]⟩

lemma precFold_mem_diags (a : Assoc) (lvl : Nat) (sp : Option Span)
    (ts : List (Option Nat)) (b : Builder) (d : Diagnostic)
    (hd : d ∈ b.diags) :
    d ∈ (ts.foldl (precGroupStep a lvl sp) b).diags := by
  obtain ⟨e, he⟩ := precFold_diags_extend a lvl sp ts b
  rw [he]
  exact List.mem_append_left e hd

lemma precGroupStep_nonzero (a : Assoc) (lvl : Nat) (sp : Option Span)
    (b : Builder) (t : Option Nat) (i : Nat) (s : Symbol)
    (hs : b.g.symbols.get? i = some s) (hp : s.precedence ≠ 0) :
    (precGroupStep a lvl sp b t).g.symbols.get? i = some s := by
  by_cases ht : t = some i
  · subst ht
    simp only [precGroupStep, hs]
    split
    · exact hs
    · exact hs
  · rw [precGroupStep_symAt_other a lvl sp b t i ht]
    exact hs

lemma precFold_nonzero (a : Assoc) (lvl : Nat) (sp : Option Span) :
    ∀ (ts : List (Option Nat)) (b : Builder) (i : Nat) (s : Symbol),
      b.g.symbols.get? i = some s → s.precedence ≠ 0 →
      (ts.foldl (precGroupStep a lvl sp) b).g.symbols.get? i = some s := by
  intro ts
  induction ts with
  | nil => intro b i s hs _; exact hs
  | cons t rest ih =>
      intro b i s hs hp
      rw [List.foldl_cons]
      exact ih _ i s (precGroupStep_nonzero a lvl sp b t i s hs hp) hp

lemma precFold_zero_member (a : Assoc) (lvl : Nat) (sp : Option Span)
    (hlvl : lvl ≠ 0) :
    ∀ (ts : List (Option Nat)) (b : Builder) (i : Nat) (s : Symbol),
      some i ∈ ts → b.g.symbols.get? i = some s →
      s.kind = SymTerminal → s.precedence = 0 →
      (ts.foldl (precGroupStep a lvl sp) b).g.symbols.get? i =
        some { s with precedence := lvl, assoc := a } := by
  intro ts
  induction ts with
  | nil => intro b i s hmem; exact absurd hmem (List.not_mem_nil _)
  | cons t rest ih =>
      intro b i s hmem hs hk hp
      rw [List.foldl_cons]
      by_cases ht : t = some i
      · subst ht
        have hstep : (precGroupStep a lvl sp b (some i)).g.symbols.get? i =
            some { s with precedence := lvl, assoc := a } := by
          simp only [precGroupStep, hs]
          rw [if_neg (not_not_intro hk)]
          rw [if_neg (not_not_intro hp)]
          simp only [Builder.updateSymbolAt, hs]
          exact get?_set_self _ _ s _ hs
        exact precFold_nonzero a lvl sp rest _ i _ hstep (by simpa using hlvl)
      · rcases List.mem_cons.mp hmem with heq | hmem'
        · exact absurd heq.symm ht
        · have hs' : (precGroupStep a lvl sp b t).g.symbols.get? i =
              some s := by
            rw [precGroupStep_symAt_other a lvl sp b t i ht]
            exact hs
          exact ih _ i s hmem' hs' hk hp

lemma precFold_nonzero_warn (a : Assoc) (lvl : Nat) (sp : Option Span) :
    ∀ (ts : List (Option Nat)) (b : Builder) (i : Nat) (s : Symbol),
      some i ∈ ts → b.g.symbols.get? i = some s →
      s.kind = SymTerminal → s.precedence ≠ 0 →
      warnD sp ("terminal " ++ quoteName s.name ++
        " already has precedence " ++ toString s.precedence ++
        "; ignoring new precedence " ++ toString lvl) ∈
        (ts.foldl (precGroupStep a lvl sp) b).diags := by
  intro ts
  induction ts with
  | nil => intro b i s hmem; exact absurd hmem (List.not_mem_nil _)
  | cons t rest ih =>
      intro b i s hmem hs hk hp
      rw [List.foldl_cons]
      by_cases ht : t = some i
      · subst ht
        apply precFold_mem_diags
        simp only [precGroupStep, hs]
        rw [if_neg (not_not_intro hk)]
        rw [if_pos hp]
        exact List.mem_append_right _ (List.mem_singleton.mpr rfl)
      · rcases List.mem_cons.mp hmem with heq | hmem'
        · exact absurd heq.symm ht
        · have hs' : (precGroupStep a lvl sp b t).g.symbols.get? i =
              some s := by
            rw [precGroupStep_symAt_other a lvl sp b t i ht]
            exact hs
          exact ih _ i s hmem' hs' hk hp

/-- C4: each (associativity-carrying) precedence group increments the
group counter by one, so the Nth group of a declaration sequence gets
level N; within a group, a listed terminal with precedence 0 receives
the group's level and associativity, while a terminal whose precedence
is already non-zero is left completely unchanged and draws the
"already has precedence" warning. -/
theorem C4_precedence_groups :
    (∀ (b : Builder) (a : Assoc) (ts : List (Option Nat))
      (sp : Option Span), a ≠ AssocNone →
      (b.DefinePrecedenceGroup a ts sp).precedenceCounter =
        b.precedenceCounter + 1) ∧
    (∀ (b : Builder)
      (gs : List (Assoc × List (Option Nat) × Option Span)),
      (∀ gr ∈ gs, gr.1 ≠ AssocNone) →
      (applyPrecGroups b gs).precedenceCounter =
        b.precedenceCounter + gs.length) ∧
    (∀ (b : Builder) (a : Assoc) (ts : List (Option Nat))
      (sp : Option Span) (i : Nat) (s : Symbol),
      a ≠ AssocNone → some i ∈ ts → b.symAt i = some s →
      s.kind = SymTerminal → s.precedence = 0 →
      (b.DefinePrecedenceGroup a ts sp).symAt i =
        some { s with precedence := b.precedenceCounter + 1,
                      assoc := a }) ∧
    (∀ (b : Builder) (a : Assoc) (ts : List (Option Nat))
      (sp : Option Span) (i : Nat) (s : Symbol),
      a ≠ AssocNone → some i ∈ ts → b.symAt i = some s →
      s.kind = SymTerminal → s.precedence ≠ 0 →
      (b.DefinePrecedenceGroup a ts sp).symAt i = some s ∧
      warnD sp ("terminal " ++ quoteName s.name ++
        " already has precedence " ++ toString s.precedence ++
        "; ignoring new precedence " ++
        toString (b.precedenceCounter + 1)) ∈
        (b.DefinePrecedenceGroup a ts sp).diags) := by
  have hcounter : ∀ (b : Builder) (a : Assoc) (ts : List (Option Nat))
      (sp : Option Span), a ≠ AssocNone →
      (b.DefinePrecedenceGroup a ts sp).precedenceCounter =
        b.precedenceCounter + 1 := by
    intro b a ts sp ha
    rw [Builder.DefinePrecedenceGroup, if_neg ha]
    have := foldl_preserve
      (fun b2 => b2.precedenceCounter = b.precedenceCounter + 1)
      (precGroupStep a (b.precedenceCounter + 1) sp)
      (fun b2 t h => by
        show (precGroupStep a (b.precedenceCounter + 1) sp
          b2 t).precedenceCounter = b.precedenceCounter + 1
        rw [precGroupStep_counter]
        exact h) ts
      { b with precedenceCounter := b.precedenceCounter + 1 } rfl
    exact this
  refine ⟨hcounter, ?_, ?_, ?_⟩
  · intro b gs
    induction gs generalizing b with
    | nil => intro _; rfl
    | cons gr rest ih =>
        intro hall
        have h1 : (b.DefinePrecedenceGroup gr.1 gr.2.1
            gr.2.2).precedenceCounter = b.precedenceCounter + 1 :=
          hcounter b gr.1 gr.2.1 gr.2.2
            (hall gr (List.mem_cons_self gr rest))
        have h2 := ih (b.DefinePrecedenceGroup gr.1 gr.2.1 gr.2.2)
          (fun g2 hg2 => hall g2 (List.mem_cons_of_mem gr hg2))
        show (applyPrecGroups (b.DefinePrecedenceGroup gr.1 gr.2.1
          gr.2.2) rest).precedenceCounter = b.precedenceCounter +
          (rest.length + 1)
        rw [h2, h1]
        omega
  · intro b a ts sp i s ha hmem hs hk hp
    rw [Builder.DefinePrecedenceGroup, if_neg ha]
    exact precFold_zero_member a (b.precedenceCounter + 1) sp
      (by omega) ts { b with precedenceCounter :=
        b.precedenceCounter + 1 } i s hmem hs hk hp
  · intro b a ts sp i s ha hmem hs hk hp
    rw [Builder.DefinePrecedenceGroup, if_neg ha]
    constructor
    · exact precFold_nonzero a (b.precedenceCounter + 1) sp ts
        { b with precedenceCounter := b.precedenceCounter + 1 } i s hs hp
    · exact precFold_nonzero_warn a (b.precedenceCounter + 1) sp ts
        { b with precedenceCounter := b.precedenceCounter + 1 } i s hmem
        hs hk hp

/-- Witness fixture: `expr`, `NUM`, `PLUS` interned (IDs 0, 1, 2). -/
def wPrecB : Builder :=
  (((wBuilder.Intern "NUM" SymTerminal none).1).Intern "PLUS" SymTerminal
    none).1

/-- Witness fixture: after the first group `%left PLUS`. -/
def wPrecG1 : Builder :=
  wPrecB.DefinePrecedenceGroup AssocLeft [some 2] none

/-- The `PLUS` symbol after the first group: level 1, left. -/
def wPlusSym : Symbol :=
  { id := 2, name := "PLUS", kind := SymTerminal, typeTag := "",
    precedence := 1, assoc := AssocLeft, declaredAt := none }

/-- C4 witness: a second group `%left PLUS NUM` after `%left PLUS` —
counter reaches 2, `NUM` (level 0) receives level 2 / left, `PLUS`
(level 1 already) is unchanged and warned about. -/
theorem C4_precedence_groups_witness :
    (AssocLeft ≠ AssocNone ∧
     (wPrecG1.DefinePrecedenceGroup AssocLeft [some 2, some 1]
        none).precedenceCounter = wPrecG1.precedenceCounter + 1) ∧
    ((∀ gr ∈ ([(AssocLeft, [some 2], none),
        (AssocLeft, [some 1], none)] :
        List (Assoc × List (Option Nat) × Option Span)),
        gr.1 ≠ AssocNone) ∧
     (applyPrecGroups wPrecB [(AssocLeft, [some 2], none),
        (AssocLeft, [some 1], none)]).precedenceCounter =
       wPrecB.precedenceCounter + 2) ∧
    (some 1 ∈ ([some 2, some 1] : List (Option Nat)) ∧
     wPrecG1.symAt 1 = some wNumSym ∧
     wNumSym.kind = SymTerminal ∧ wNumSym.precedence = 0 ∧
     (wPrecG1.DefinePrecedenceGroup AssocLeft [some 2, some 1]
        none).symAt 1 =
       some { wNumSym with precedence := 2, assoc := AssocLeft }) ∧
    (some 2 ∈ ([some 2, some 1] : List (Option Nat)) ∧
     wPrecG1.symAt 2 = some wPlusSym ∧
     wPlusSym.kind = SymTerminal ∧ wPlusSym.precedence ≠ 0 ∧
     (wPrecG1.DefinePrecedenceGroup AssocLeft [some 2, some 1]
        none).symAt 2 = some wPlusSym ∧
     warnD none ("terminal " ++ quoteName wPlusSym.name ++
       " already has precedence " ++ toString wPlusSym.precedence ++
       "; ignoring new precedence " ++
       toString (wPrecG1.precedenceCounter + 1)) ∈
       (wPrecG1.DefinePrecedenceGroup AssocLeft [some 2, some 1]
        none).diags) :=
  ⟨⟨by decide,
    C4_precedence_groups.1 wPrecG1 AssocLeft [some 2, some 1] none
      (by decide)⟩,
   ⟨by decide,
    C4_precedence_groups.2.1 wPrecB
      [(AssocLeft, [some 2], none), (AssocLeft, [some 1], none)]
      (by decide)⟩,
   ⟨by decide, by decide, by decide, by decide,
    C4_precedence_groups.2.2.1 wPrecG1 AssocLeft [some 2, some 1] none 1
      wNumSym (by decide) (by decide) (by decide) (by decide)
      (by decide)⟩,
   ⟨by decide, by decide, by decide, by decide,
    (C4_precedence_groups.2.2.2 wPrecG1 AssocLeft [some 2, some 1] none 2
      wPlusSym (by decide) (by decide) (by decide) (by decide)
      (by decide)).1,
    (C4_precedence_groups.2.2.2 wPrecG1 AssocLeft [some 2, some 1] none 2
      wPlusSym (by decide) (by decide) (by decide) (by decide)
      (by decide)).2⟩⟩

/-!
C5: RHS kind inference.
-/

/-- Uppercase ASCII letter ('A'..'Z'), the spec's wording. -/
def isUpperASCII (c : Char) : Bool :=
  65 ≤ c.toNat && c.toNat ≤ 90

lemma looksAux_eq : ∀ (l : List Char) (hl au : Bool),
    looksLikeTerminalAux l hl au =
      (l.any (fun c => !(goIsLetter c)) ||
       ((hl || !l.isEmpty) && au &&
        l.all (fun c => !(goIsLetter c) || goToUpper c = c))) := by
  intro l
  induction l with
  | nil =>
      intro hl au
      simp [looksLikeTerminalAux]
  | cons c t ih =>
      intro hl au
      by_cases hc : goIsLetter c = true
      · rw [looksLikeTerminalAux, if_pos hc, ih]
        rw [List.any_cons, List.all_cons]
        simp only [hc, Bool.not_true, Bool.false_or, List.isEmpty_cons,
          Bool.not_false, Bool.or_true, Bool.true_or, Bool.true_and]
        cases hd : decide (goToUpper c = c) <;> cases au <;> cases hl <;>
          cases ht : t.any (fun c => !(goIsLetter c)) <;> simp
      · have hc' : goIsLetter c = false := Bool.eq_false_iff.mpr hc
        rw [looksLikeTerminalAux, if_neg (by rw [hc']; simp)]
        rw [List.any_cons]
        simp [hc']

lemma looksLikeTerminal_eq_amended (name : String) :
    looksLikeTerminal name =
      (name.toList.any (fun c => !(goIsLetter c)) ||
       (!(name.toList.isEmpty) &&
        name.toList.all (fun c => goIsLetter c && goToUpper c = c))) := by
  rw [looksLikeTerminal]
  by_cases he : name = ""
  · subst he
    simp
  · rw [if_neg he, looksAux_eq]
    by_cases hany : name.toList.any (fun c => !(goIsLetter c)) = true
    · rw [hany]
      simp
    · have hall : ∀ c ∈ name.toList, goIsLetter c = true := by
        intro c hcmem
        by_contra hcl
        apply hany
        rw [List.any_eq_true]
        exact ⟨c, hcmem, by rw [Bool.eq_false_iff.mpr hcl]; rfl⟩
      have hany' : name.toList.any (fun c => !(goIsLetter c)) = false :=
        Bool.eq_false_iff.mpr hany
      rw [hany']
      simp only [Bool.false_or, Bool.false_and, Bool.and_true]
      have hEq : name.toList.all
          (fun c => !(goIsLetter c) || goToUpper c = c) =
          name.toList.all (fun c => goIsLetter c && goToUpper c = c) := by
        rw [Bool.eq_iff_iff, List.all_eq_true, List.all_eq_true]
        constructor
        · intro h c hc
          have h2 := h c hc
          rw [hall c hc] at h2
          rw [hall c hc]
          simpa using h2
        · intro h c hc
          have h2 := h c hc
          rw [hall c hc] at h2
          rw [hall c hc]
          simpa using h2
      rw [hEq]

/-- The RHS kind-resolution order exactly as the claim states it:
declared token > existing interned kind > "contains a non-letter
character or consists entirely of uppercase ASCII letters" >
nonterminal.  Refuted by the C5 counterexample: on capital non-ASCII
letters (fixed by `ToUpper` but outside `A`–`Z`) the program resolves
terminal while this rule says nonterminal. -/
def specResolvedKind (s : BuilderSink) (name : String) : SymbolKind :=
  if s.declTokens.contains name then SymTerminal
  else
    match lookupIdx s.b.g.symbols name with
    | some (_, sym) => sym.kind
    | none =>
        if name.toList.any (fun c => !(goIsLetter c)) then SymTerminal
        else if !(name.toList.isEmpty) && name.toList.all isUpperASCII
          then SymTerminal
        else SymNonterminal

/-- The amended resolution order: the heuristic step is "contains a
non-letter character, or consists entirely of letters none of which is
changed by `ToUpper`" — covering non-ASCII capital and caseless
letters, which is what the program's loop actually tests.
`resolveSymbolInRHS` is checked against this. -/
def specResolvedKindUpd (s : BuilderSink) (name : String) : SymbolKind :=
  if s.declTokens.contains name then SymTerminal
  else
    match lookupIdx s.b.g.symbols name with
    | some (_, sym) => sym.kind
    | none =>
        if name.toList.any (fun c => !(goIsLetter c)) then SymTerminal
        else if !(name.toList.isEmpty) &&
            name.toList.all (fun c => goIsLetter c && goToUpper c = c)
          then SymTerminal
        else SymNonterminal

lemma spec_heuristic_upd_eq (s : BuilderSink) (name : String)
    (hdt : s.declTokens.contains name = false)
    (hlk : lookupIdx s.b.g.symbols name = none) :
    specResolvedKindUpd s name =
      (if looksLikeTerminal name then SymTerminal else SymNonterminal) := by
  rw [specResolvedKindUpd, if_neg (by rw [hdt]; simp), hlk,
    looksLikeTerminal_eq_amended]
  by_cases h1 : name.toList.any (fun c => !(goIsLetter c)) = true
  · rw [if_pos h1, if_pos (by rw [h1]; simp)]
  · have h1' : _ = false := Bool.eq_false_iff.mpr h1
    rw [if_neg h1, h1']
    simp only [Bool.false_or]

/-- C3/C5 helper: `Intern` on a known (trimmed, matching-kind) name
returns the builder unchanged with the existing index. -/
lemma intern_existing_eq (b : Builder) (nm : String) (kind : SymbolKind)
    (sp : Option Span) (i : Nat) (sym : Symbol)
    (hne : trimSpace nm ≠ "")
    (hlk : lookupIdx b.g.symbols (trimSpace nm) = some (i, sym))
    (hk : sym.kind = kind) : b.Intern nm kind sp = (b, i) := by
  rw [Builder.Intern]
  simp only [if_neg hne]
  rw [Builder.internNamed, hlk]
  simp [hk]

/-- `intern_fresh` specialized to an already-trimmed name. -/
lemma intern_fresh2 (b : Builder) (nm : String) (kind : SymbolKind)
    (sp : Option Span) (ht : trimSpace nm = nm) (hne : nm ≠ "")
    (hnew : lookupIdx b.g.symbols nm = none) :
    b.Intern nm kind sp =
      ({ b with g := { b.g with symbols := b.g.symbols ++
          [{ id := b.g.symbols.length, name := nm, kind := kind,
             typeTag := "", precedence := 0, assoc := AssocNone,
             declaredAt := sp }] } }, b.g.symbols.length) := by
  have h2 := intern_fresh b nm kind sp (by rw [ht]; exact hne)
    (by rw [ht]; exact hnew)
  rw [ht] at h2
  exact h2

/-- C5 amended: with the default ALLCAPS heuristic on and a
declared-token table consistent with the intern table,
`resolveSymbolInRHS` assigns exactly the kind of the amended
resolution order (declared token > interned kind > "non-letter present
or all letters fixed by `ToUpper`" > nonterminal). -/
theorem C5_rhs_kind_inference_amended :
    (∀ b : Builder, (NewBuilderSink b).useHeuristicCapsAsTerminal =
      true) ∧
    (∀ (s : BuilderSink) (sr : SymRef),
      trimSpace sr.name ≠ "" →
      s.useHeuristicCapsAsTerminal = true →
      (∀ (i : Nat) (sym : Symbol),
        s.declTokens.contains (trimSpace sr.name) = true →
        lookupIdx s.b.g.symbols (trimSpace sr.name) = some (i, sym) →
        sym.kind = SymTerminal) →
      ∃ sym, ((s.resolveSymbolInRHS sr).1).b.symAt
          ((s.resolveSymbolInRHS sr).2) = some sym ∧
        sym.kind = specResolvedKindUpd s (trimSpace sr.name)) := by
  refine ⟨fun b => rfl, ?_⟩
  intro s sr hne hheur hcons
  have htrim : trimSpace (trimSpace sr.name) = trimSpace sr.name :=
    trimSpace_idem sr.name
  simp only [BuilderSink.resolveSymbolInRHS]
  rw [if_neg hne]
  by_cases hdt : s.declTokens.contains (trimSpace sr.name) = true
  · rw [if_pos hdt]
    cases hlk : lookupIdx s.b.g.symbols (trimSpace sr.name) with
    | some p =>
        obtain ⟨i, sym⟩ := p
        have hk := hcons i sym hdt hlk
        have hens : s.b.EnsureTerminal (trimSpace sr.name) sr.atSpan =
            (s.b, i) := by
          rw [Builder.EnsureTerminal]
          exact intern_existing_eq s.b (trimSpace sr.name) SymTerminal
            sr.atSpan i sym (by rw [htrim]; exact hne)
            (by rw [htrim]; exact hlk) hk
        rw [hens]
        refine ⟨sym, (lookupIdx_some _ _ _ _ hlk).1, ?_⟩
        rw [specResolvedKindUpd, if_pos hdt, hk]
    | none =>
        have hens : s.b.EnsureTerminal (trimSpace sr.name) sr.atSpan =
            ({ s.b with g := { s.b.g with symbols := s.b.g.symbols ++
              [{ id := s.b.g.symbols.length, name := trimSpace sr.name,
                 kind := SymTerminal, typeTag := "", precedence := 0,
                 assoc := AssocNone, declaredAt := sr.atSpan }] } },
             s.b.g.symbols.length) := by
          rw [Builder.EnsureTerminal]
          exact intern_fresh2 s.b (trimSpace sr.name) SymTerminal
            sr.atSpan htrim hne hlk
        rw [hens]
        refine ⟨_, get?_concat_self _ _, ?_⟩
        rw [specResolvedKindUpd, if_pos hdt]
  · have hdt' : s.declTokens.contains (trimSpace sr.name) = false :=
      Bool.eq_false_iff.mpr hdt
    rw [if_neg hdt]
    have hlkdef : s.b.Lookup (trimSpace sr.name) =
        lookupIdx s.b.g.symbols (trimSpace sr.name) := by
      rw [Builder.Lookup, htrim]
    cases hlk : lookupIdx s.b.g.symbols (trimSpace sr.name) with
    | some p =>
        obtain ⟨i, sym⟩ := p
        rw [hlkdef, hlk]
        refine ⟨sym, (lookupIdx_some _ _ _ _ hlk).1, ?_⟩
        rw [specResolvedKindUpd, if_neg (by rw [hdt']; simp), hlk]
    | none =>
        rw [hlkdef, hlk]
        rw [hheur]
        rw [spec_heuristic_upd_eq s (trimSpace sr.name) hdt' hlk]
        by_cases hterm : looksLikeTerminal (trimSpace sr.name) = true
        · rw [if_pos (by rw [hterm]; simp), if_pos hterm]
          have hens : s.b.EnsureTerminal (trimSpace sr.name) sr.atSpan =
              ({ s.b with g := { s.b.g with symbols := s.b.g.symbols ++
                [{ id := s.b.g.symbols.length, name := trimSpace sr.name,
                   kind := SymTerminal, typeTag := "", precedence := 0,
                   assoc := AssocNone, declaredAt := sr.atSpan }] } },
               s.b.g.symbols.length) := by
            rw [Builder.EnsureTerminal]
            exact intern_fresh2 s.b (trimSpace sr.name) SymTerminal
              sr.atSpan htrim hne hlk
          rw [hens]
          exact ⟨_, get?_concat_self _ _, rfl⟩
        · have hterm' : looksLikeTerminal (trimSpace sr.name) = false :=
            Bool.eq_false_iff.mpr hterm
          rw [if_neg (by rw [hterm']; simp), if_neg hterm]
          have hens : s.b.EnsureNonterminal (trimSpace sr.name)
              sr.atSpan =
              ({ s.b with g := { s.b.g with symbols := s.b.g.symbols ++
                [{ id := s.b.g.symbols.length, name := trimSpace sr.name,
                   kind := SymNonterminal, typeTag := "", precedence := 0,
                   assoc := AssocNone, declaredAt := sr.atSpan }] } },
               s.b.g.symbols.length) := by
            rw [Builder.EnsureNonterminal]
            exact intern_fresh2 s.b (trimSpace sr.name) SymNonterminal
              sr.atSpan htrim hne hlk
          rw [hens]
          exact ⟨_, get?_concat_self _ _, rfl⟩

/-- Witness fixture: a sink over `wBuilder` with `TOK` declared via a
`%token`-style directive. -/
def wSink5 : BuilderSink :=
  { b := wBuilder, curRule := none, curLHS := none,
    declTokens := ["TOK"], declTypes := [],
    useHeuristicCapsAsTerminal := true }

/-- C5 amended witness: resolving the undeclared, uninterned all-caps
name `NUM` in `wSink5` (the heuristic branch of the amended order). -/
theorem C5_rhs_kind_inference_amended_witness :
    ((NewBuilderSink wBuilder).useHeuristicCapsAsTerminal = true) ∧
    (trimSpace (ref "NUM").name ≠ "") ∧
    (wSink5.useHeuristicCapsAsTerminal = true) ∧
    (∃ sym, ((wSink5.resolveSymbolInRHS (ref "NUM")).1).b.symAt
        ((wSink5.resolveSymbolInRHS (ref "NUM")).2) = some sym ∧
      sym.kind = specResolvedKindUpd wSink5 (trimSpace (ref "NUM").name)) :=
  ⟨C5_rhs_kind_inference_amended.1 wBuilder,
   by decide, by decide,
   C5_rhs_kind_inference_amended.2 wSink5 (ref "NUM") (by decide)
     (by decide) (fun _ _ hcon _ => absurd hcon (by decide))⟩

/-- C5 counterexample: the all-capital Greek name `ΑΒ` (U+0391 U+0392;
letters, fixed by `ToUpper`, but not ASCII): even with the heuristic on,
no `%token` declaration for it and no prior interning, the claim's rule
(`specResolvedKind`) resolves it as a nonterminal, while the program's
`resolveSymbolInRHS` interns it as a terminal. -/
theorem C5_rhs_kind_inference_counterexample :
    trimSpace (ref "ΑΒ").name = "ΑΒ" ∧
    wSink5.useHeuristicCapsAsTerminal = true ∧
    wSink5.declTokens.contains "ΑΒ" = false ∧
    lookupIdx wSink5.b.g.symbols "ΑΒ" = none ∧
    specResolvedKind wSink5 "ΑΒ" = SymNonterminal ∧
    (∃ sym, ((wSink5.resolveSymbolInRHS (ref "ΑΒ")).1).b.symAt
        ((wSink5.resolveSymbolInRHS (ref "ΑΒ")).2) = some sym ∧
      sym.kind = SymTerminal) :=
  ⟨by decide, by decide, by decide, by decide, by decide,
   ⟨{ id := 1, name := "ΑΒ", kind := SymTerminal, typeTag := "",
      precedence := 0, assoc := AssocNone, declaredAt := none },
    by decide, by decide⟩⟩

end Guanabana
